import Mathlib

/-!
# gqlerrors: error classification and formatting

A shallow embedding of `gqlerrors/formatted.go` and `gqlerrors/common.go`:
the `FormattedError` envelope, the formatting function `FormatError`, the four
built-in error kinds and the `FormattedError` constructors.

Go values are embedded as follows.

* A slice is `Option (List α)`: `none` is the nil slice, `some []` the empty
  non-nil slice (`[]T{}`).
* A `map[string]interface{}` is `Option (List (String × GoValue))`: `none` is the
  nil map, `some kvs` a map holding the bindings `kvs`.
* A value of the interface type `error` is a `GoError`: the nil interface, or a
  dynamic value tagged by its dynamic type. Pointer-typed errors are represented
  by the value they point to.
* A run-time panic (a method call on the nil interface) is `none` in the result.
-/

set_option linter.dupNamespace false

namespace Gqlerrors

/-- A dynamic value of type `interface{}`, as found in a response path or as the
value of an extension entry. -/
inductive GoValue where
  | nil : GoValue
  | bool (b : Bool) : GoValue
  | int (i : Int) : GoValue
  | str (s : String) : GoValue
  | slice (vs : List GoValue) : GoValue
  | map (kvs : List (String × GoValue)) : GoValue

/-- The type `location.SourceLocation` used by `FormattedError.Locations`. Its
declaration (package `language/location`) is not among the sources; a location is
kept as a line and a column. -/
structure SourceLocation where
  Line : Int
  Column : Int
deriving DecidableEq, Repr

/-- A Go slice: `none` is nil, `some xs` a non-nil slice with elements `xs`. -/
abbrev Slice (α : Type) := Option (List α)

/-- A Go `map[string]interface{}`: `none` is the nil map. -/
abbrev ExtMap := Option (List (String × GoValue))

/-- The builtin `len` on slices; the nil slice has length 0. -/
def Slice.len {α : Type} : Slice α → Nat
  | none => 0
  | some xs => xs.length

/-- The builtin `len` on maps; the nil map has length 0. -/
def ExtMap.len : ExtMap → Nat
  | none => 0
  | some kvs => kvs.length

/-- Map indexing `m[k]` with the comma-ok form: the value bound to `k`, if any. -/
def ExtMap.lookup (m : ExtMap) (k : String) : Option GoValue :=
  match m with
  | none => none
  | some kvs => (kvs.find? (fun kv => kv.1 == k)).map Prod.snd

mutual
/-- A value of the interface type `error`, by dynamic type.

* `nil`: the nil interface.
* `formatted`: a `FormattedError` value.
* `errorPtr`: a `*Error` of this package.
* `errorVal`: an `Error` value of this package.
* `forbiddenError`, `unauthorizedError`, `badArgumentError`,
  `internalServerError`: the pointer types of `common.go`, with their one field.
* `other`: an error of any other dynamic type; `msg` is what its `Error()` method
  returns and `ext` is `some m` when the type implements `ExtendedError` and its
  `Extensions()` method returns `m`, and `none` when it has no such method. -/
inductive GoError where
  | nil : GoError
  | formatted (f : FormattedError) : GoError
  | errorPtr (e : Error) : GoError
  | errorVal (e : Error) : GoError
  | forbiddenError (msg : String) : GoError
  | unauthorizedError (msg : String) : GoError
  | badArgumentError (arguments : Slice String) : GoError
  | internalServerError (msg : String) : GoError
  | other (msg : String) (ext : Option ExtMap) : GoError

/-- The struct `FormattedError` of `formatted.go`. -/
inductive FormattedError where
  | mk (Message : String) (Locations : Slice SourceLocation) (Path : Slice GoValue)
      (Extensions : ExtMap) (originalError : GoError) : FormattedError

/-- The struct `Error` of this package. Its declaration is not among the sources;
kept here are the members `FormatError` reads: the fields `Locations`, `Path` and
`OriginalError`, and `Message`, which stands for the string its `Error()` method
returns. -/
inductive Error where
  | mk (Message : String) (Locations : Slice SourceLocation) (Path : Slice GoValue)
      (OriginalError : GoError) : Error
end

namespace FormattedError

/-- Field `Message`. -/
def Message : FormattedError → String
  | .mk m _ _ _ _ => m

/-- Field `Locations`. -/
def Locations : FormattedError → Slice SourceLocation
  | .mk _ l _ _ _ => l

/-- Field `Path`. -/
def Path : FormattedError → Slice GoValue
  | .mk _ _ p _ _ => p

/-- Field `Extensions`. -/
def Extensions : FormattedError → ExtMap
  | .mk _ _ _ x _ => x

/-- Field `originalError` (unexported). -/
def originalError : FormattedError → GoError
  | .mk _ _ _ _ o => o

/-- Method `func (g FormattedError) OriginalError() error`. -/
def OriginalError (g : FormattedError) : GoError := g.originalError

/-- Method `func (g FormattedError) Error() string`. -/
def Error (g : FormattedError) : String := g.Message

end FormattedError

namespace Error

/-- The string returned by the method `Error()` of `Error`. -/
def Error : Gqlerrors.Error → String
  | .mk m _ _ _ => m

/-- Field `Locations`. -/
def Locations : Gqlerrors.Error → Slice SourceLocation
  | .mk _ l _ _ => l

/-- Field `Path`. -/
def Path : Gqlerrors.Error → Slice GoValue
  | .mk _ _ p _ => p

/-- Field `OriginalError`. -/
def OriginalError : Gqlerrors.Error → GoError
  | .mk _ _ _ o => o

end Error

/-! ## common.go -/

namespace Common

/-- `func (e *ForbiddenError) Error() string`. -/
def ForbiddenError.Error (msg : String) : String :=
  if msg ≠ "" then msg else "authentication failure, permission denied"

/-- `func (*ForbiddenError) Extensions() map[string]interface{}`. -/
def ForbiddenError.Extensions : ExtMap :=
  some [("code", .str "FORBIDDEN")]

/-- `func Forbidden(msg string) error`. -/
def Forbidden (msg : String) : GoError := .forbiddenError msg

/-- `func (e *UnauthorizedError) Error() string`. -/
def UnauthorizedError.Error (msg : String) : String :=
  if msg ≠ "" then msg else "unauthorized user"

/-- `func (*UnauthorizedError) Extensions() map[string]interface{}`. -/
def UnauthorizedError.Extensions : ExtMap :=
  some [("code", .str "UNAUTHORIZED")]

/-- `func Unauthorized(msg string) error`. -/
def Unauthorized (msg : String) : GoError := .unauthorizedError msg

/-- `strings.Join(elems, sep)`: the elements concatenated with `sep` between
consecutive ones. -/
def stringsJoin : List String → String → String
  | [], _ => ""
  | [a], _ => a
  | a :: b :: rest, sep => a ++ sep ++ stringsJoin (b :: rest) sep

/-- `func (e *BadArgumentError) Error() string`. -/
def BadArgumentError.Error (arguments : Slice String) : String :=
  if arguments.len > 0 then
    "'" ++ stringsJoin (arguments.getD []) "', '" ++ "' has some errors, please check it"
  else "bad argument(s)"

/-- `func (*BadArgumentError) Extensions() map[string]interface{}`. -/
def BadArgumentError.Extensions : ExtMap :=
  some [("code", .str "BAD_USER_INPUT")]

/-- `func UserInputError(arguments []string) error`. -/
def UserInputError (arguments : Slice String) : GoError := .badArgumentError arguments

/-- `func (e *InternalServerError) Error() string`. -/
def InternalServerError.Error (msg : String) : String :=
  if msg ≠ "" then msg else "internal server error"

/-- `func (*InternalServerError) Extensions() map[string]interface{}`. -/
def InternalServerError.Extensions : ExtMap :=
  some [("code", .str "INTERNAL_SERVER_ERROR")]

/-- `func InternalError(msg string) error`. -/
def InternalError (msg : String) : GoError := .internalServerError msg

end Common

/-! ## Method calls on `error` values -/

/-- The call `err.Error()` on an interface value, dispatched on the dynamic type;
`none` is the panic of a call on the nil interface. -/
def GoError.Error : GoError → Option String
  | .nil => none
  | .formatted f => some f.Error
  | .errorPtr e => some e.Error
  | .errorVal e => some e.Error
  | .forbiddenError msg => some (Common.ForbiddenError.Error msg)
  | .unauthorizedError msg => some (Common.UnauthorizedError.Error msg)
  | .badArgumentError arguments => some (Common.BadArgumentError.Error arguments)
  | .internalServerError msg => some (Common.InternalServerError.Error msg)
  | .other msg _ => some msg

/-- The type assertion `err.(ExtendedError)` followed by `extended.Extensions()`:
`none` when the assertion fails (`ok` is false), `some m` when the dynamic type
has the method and it returns `m`. `FormattedError` has a field named
`Extensions`, hence no method of that name; no use of `Error` in the sources
calls such a method on it, and it is taken to have none. -/
def GoError.asExtended : GoError → Option ExtMap
  | .nil => none
  | .formatted _ => none
  | .errorPtr _ => none
  | .errorVal _ => none
  | .forbiddenError _ => some Common.ForbiddenError.Extensions
  | .unauthorizedError _ => some Common.UnauthorizedError.Extensions
  | .badArgumentError _ => some Common.BadArgumentError.Extensions
  | .internalServerError _ => some Common.InternalServerError.Extensions
  | .other _ ext => ext

/-! ## formatted.go -/

/-- The body of `case *Error:` in `FormatError`. -/
def formatErrorPtr (err : Error) : FormattedError :=
  let ret : FormattedError := .mk err.Error err.Locations err.Path none (.errorPtr err)
  match err.OriginalError with
  | .nil => ret
  | orig =>
    match orig.asExtended with
    | some m => .mk ret.Message ret.Locations ret.Path m ret.originalError
    | none => ret

/-- `func FormatError(err error) FormattedError`. The case `Error` takes the
address of its copy and re-enters at the case `*Error`; the default case calls
`err.Error()`, which panics on the nil interface. -/
def FormatError : GoError → Option FormattedError
  | .formatted f => some f
  | .errorPtr e => some (formatErrorPtr e)
  | .errorVal e => some (formatErrorPtr e)
  | err =>
    match err.Error with
    | none => none
    | some m => some (.mk m (some []) none none err)

/-- `errors.New(text)`: an error of the standard library whose `Error()` returns
`text` and which has no `Extensions` method. -/
def errorsNew (text : String) : GoError := .other text none

/-- `func NewFormattedError(message string) FormattedError`. -/
def NewFormattedError (message : String) : Option FormattedError :=
  let err := errorsNew message
  FormatError err

/-- `func FormatErrors(errs ...error) []FormattedError`: the loop appends
`FormatError(err)` for each element in turn; a panic in one call aborts it. -/
def FormatErrors : List GoError → Option (List FormattedError)
  | [] => some []
  | err :: errs =>
    match FormatError err with
    | none => none
    | some f =>
      match FormatErrors errs with
      | none => none
      | some fs => some (f :: fs)

namespace Formatted

/-- `func Forbidden(msg string) FormattedError`. -/
def Forbidden (msg : String) : FormattedError :=
  let msg := if msg = "" then "authentication failure, permission denied" else msg
  .mk msg (some []) (some []) (some [("code", .str "FORBIDDEN")]) .nil

/-- `func Unauthorized(msg string) FormattedError`. -/
def Unauthorized (msg : String) : FormattedError :=
  let msg := if msg = "" then "unauthorized user" else msg
  .mk msg (some []) (some []) (some [("code", .str "UNAUTHORIZED")]) .nil

/-- `func UserInputError(msg string, where ...location.SourceLocation) FormattedError`.
The variadic parameter `where` is a slice (nil when no location is passed). -/
def UserInputError (msg : String) (wh : Slice SourceLocation) : FormattedError :=
  let msg := if msg = "" then "bad arguments" else msg
  .mk msg wh (some []) (some [("code", .str "BAD_USER_INPUT")]) .nil

/-- `func InternalError(msg string) FormattedError`. -/
def InternalError (msg : String) : FormattedError :=
  let msg := if msg = "" then "internal error" else msg
  .mk msg (some []) (some []) (some [("code", .str "INTERNAL_SERVER_ERROR")]) .nil

end Formatted

/-! ## The serialized form (`encoding/json` on the struct tags of `FormattedError`) -/

/-- A JSON value. The members of an object are kept in the order they are
written. -/
inductive JSON where
  | null : JSON
  | bool (b : Bool) : JSON
  | number (n : Int) : JSON
  | string (s : String) : JSON
  | array (items : List JSON) : JSON
  | object (members : List (String × JSON)) : JSON

/-- Insertion of a member into a list of members sorted by key; keys are compared
character by character, as Go compares strings. -/
def insertMember (kv : String × JSON) : List (String × JSON) → List (String × JSON)
  | [] => [kv]
  | m :: ms => if kv.1.data < m.1.data then kv :: m :: ms else m :: insertMember kv ms

/-- The members of a map sorted by key, the order in which `encoding/json`
writes a map. -/
def sortMembers : List (String × JSON) → List (String × JSON)
  | [] => []
  | m :: ms => insertMember m (sortMembers ms)

mutual
/-- The encoding of a dynamic value by `encoding/json`. -/
def GoValue.toJSON : GoValue → JSON
  | .nil => .null
  | .bool b => .bool b
  | .int i => .number i
  | .str s => .string s
  | .slice vs => .array (GoValue.toJSONList vs)
  | .map kvs => .object (sortMembers (GoValue.toJSONMembers kvs))

/-- The encodings of the elements of a slice, in order. -/
def GoValue.toJSONList : List GoValue → List JSON
  | [] => []
  | v :: vs => v.toJSON :: GoValue.toJSONList vs

/-- The encodings of the bindings of a map. -/
def GoValue.toJSONMembers : List (String × GoValue) → List (String × JSON)
  | [] => []
  | (k, v) :: kvs => (k, v.toJSON) :: GoValue.toJSONMembers kvs
end

/-- The members `encoding/json` writes for a `FormattedError`, read off the struct
declaration: the exported fields in declaration order, each under the key of its
tag (`message`, `locations`, `path`, `extensions`); a field tagged `omitempty` is
left out when it is nil or has length 0; a nil slice without `omitempty` is
written as `null`; the unexported field `originalError` is not written. The
encoding of a `location.SourceLocation`, declared outside the sources, is the
parameter `encLoc`. -/
def FormattedError.marshalMembers (encLoc : SourceLocation → JSON) (f : FormattedError) :
    List (String × JSON) :=
  [("message", .string f.Message),
   ("locations", match f.Locations with
      | none => .null
      | some ls => .array (ls.map encLoc))] ++
  (if f.Path.len = 0 then []
   else [("path", .array (GoValue.toJSONList (f.Path.getD [])))]) ++
  (if f.Extensions.len = 0 then []
   else [("extensions", .object (sortMembers (GoValue.toJSONMembers (f.Extensions.getD []))))])

/-- The keys of the serialized object, in the order written. -/
def FormattedError.marshalKeys (encLoc : SourceLocation → JSON) (f : FormattedError) :
    List String :=
  (f.marshalMembers encLoc).map Prod.fst

/-- The dynamic type is one of the four error types of `common.go`. -/
def GoError.isBuiltinKind : GoError → Bool
  | .forbiddenError _ => true
  | .unauthorizedError _ => true
  | .badArgumentError _ => true
  | .internalServerError _ => true
  | _ => false

/-- An extension mapping binds the key `code` to a string. -/
def HasCodeString (m : ExtMap) : Prop :=
  ∃ code : String, m.lookup "code" = some (.str code)

/-- A name wrapped in single quotes. -/
def quoted (name : String) : String := "'" ++ name ++ "'"

/-- The message of a bad-argument error as the specification words it: each name
wrapped in single quotes, the quoted names joined by `", "` in the given order,
followed by `" has some errors, please check it"`. -/
def badArgumentMessageSpec (names : List String) : String :=
  Common.stringsJoin (names.map quoted) ", " ++ " has some errors, please check it"

/-- The names of `names` occur in `s` one after the other, in the given order,
without overlap: `s` splits as `pre ++ name ++ rest` with the remaining names
occurring in `rest`. -/
def OccurInOrder : List String → String → Prop
  | [], _ => True
  | name :: names, s => ∃ pre rest : String, s = pre ++ name ++ rest ∧ OccurInOrder names rest

/-! ## The execution engine

The engine (`graphql.Do`, the default resolver, selection merging and
`IsFieldSelected`) is not among the sources; only its tests are
(`executor_resolve_test.go`). The definitions of this section follow the wording
of the specification (§3, §4.2, §4.3, §4.3.1, §4.5). Sibling fields are executed
one after the other in selection order, which is the order in which the
specification assembles the response; the context value of §5 is left out. -/

namespace Executor

/-- Modelled from the spec: the values of the engine, which is not among the
sources (§3, §4.3.1). A parent value is a keyed mapping, a structured record
whose members carry their declared name, an optional external-facing tag and a
value, or a plain value; a member of a mapping or record may be a zero-argument
accessor, kept here with the value it returns. Response data uses the same
values, an object being a `mapping` in response-key order. -/
inductive Value where
  | null : Value
  | bool (b : Bool) : Value
  | int (i : Int) : Value
  | str (s : String) : Value
  | list (items : List Value) : Value
  | mapping (entries : List (String × Value)) : Value
  | accessor (result : Value) : Value
  | record (members : List (String × Option String × Value)) : Value

/-- A member of a structured record: declared name, external-facing tag, value. -/
abbrev Member := String × Option String × Value

/-- A string with its letters in lower case, for the case-insensitive comparison
of §4.3.1 (c). -/
def foldCase (s : String) : String := String.mk (s.data.map Char.toLower)

/-- Modelled from the spec: the lookup of §4.3.1 (a) in a keyed mapping, by the
response key or else by the field name. -/
def lookupEntry (entries : List (String × Value)) (key name : String) : Option Value :=
  match entries.lookup key with
  | some v => some v
  | none => entries.lookup name

/-- Modelled from the spec: strategy (a) of the default resolution (§4.3.1): the
parent value is a keyed mapping and the entry found is a value. -/
def keyedLookup (parent : Value) (key name : String) : Option Value :=
  match parent with
  | .mapping entries =>
    match lookupEntry entries key name with
    | some (.accessor _) => none
    | found => found
  | _ => none

/-- Modelled from the spec: strategy (b) of the default resolution (§4.3.1): the
parent value exposes a zero-argument accessor matching the field name; it is
invoked and its return used. -/
def callableMember (parent : Value) (key name : String) : Option Value :=
  match parent with
  | .mapping entries =>
    match lookupEntry entries key name with
    | some (.accessor result) => some result
    | _ => none
  | .record members =>
    match members.find? (fun m => m.1 == name) with
    | some (_, _, .accessor result) => some result
    | _ => none
  | _ => none

/-- Modelled from the spec: a record member answers to a field name by its
external-facing tag when it declares one (compared case-sensitively), otherwise
by its own declared name (§4.3.1 (c)). -/
def memberMatches (name : String) (m : Member) : Bool :=
  match m.2.1 with
  | some tag => tag == name
  | none => m.1 == name

/-- Modelled from the spec: the permissive fallback of §4.3.1 (c): a member
without tag whose declared name is the field name up to letter case. -/
def memberMatchesFold (name : String) (m : Member) : Bool :=
  match m.2.1 with
  | some _ => false
  | none => foldCase m.1 == foldCase name

/-- Modelled from the spec: strategy (c) of the default resolution (§4.3.1): the
parent value is a structured record; the first member matching by tag or exact
name, else the first one matching up to letter case. -/
def recordMember (parent : Value) (name : String) : Option Value :=
  match parent with
  | .record members =>
    match members.find? (memberMatches name) with
    | some m => some m.2.2
    | none => (members.find? (memberMatchesFold name)).map (fun m => m.2.2)
  | _ => none

/-- Modelled from the spec: the Default Resolution Strategy (§4.3.1): the
strategies (a), (b), (c) tried in order until one yields a value; no match yields
null. -/
def defaultResolve (parent : Value) (key name : String) : Value :=
  match keyedLookup parent key name with
  | some v => v
  | none =>
    match callableMember parent key name with
    | some v => v
    | none =>
      match recordMember parent name with
      | some v => v
      | none => .null

/-- Modelled from the spec: a type reference (§3): a named type, or a List or
NonNull wrapper around one inner type. -/
inductive Ty where
  | named (name : String) : Ty
  | list (elem : Ty) : Ty
  | nonNull (inner : Ty) : Ty

/-- The named type a type reference ends in. -/
def Ty.typeName : Ty → String
  | .named n => n
  | .list elem => elem.typeName
  | .nonNull inner => inner.typeName

/-- The type reference is a NonNull wrapper. -/
def Ty.isNonNull : Ty → Bool
  | .nonNull _ => true
  | _ => false

/-- Modelled from the spec: an argument as the query supplies it (§6): a literal
or a reference to a variable. -/
inductive ArgValue where
  | literal (v : Value) : ArgValue
  | variable (name : String) : ArgValue

/-- Modelled from the spec: a selection of the validated document (§6): a field
with optional alias, arguments and sub-selections, a fragment spread, or an inline
fragment with an optional type condition. -/
inductive Selection where
  | field (fieldAlias : Option String) (name : String)
      (arguments : List (String × ArgValue)) (selectionSet : List Selection) : Selection
  | fragmentSpread (name : String) : Selection
  | inlineFragment (typeCondition : Option String) (selectionSet : List Selection) : Selection

/-- Modelled from the spec: a named fragment definition (§6, glossary). -/
structure FragmentDef where
  name : String
  typeCondition : String
  selectionSet : List Selection

/-- Modelled from the spec: the validated document (§6): the selections of the
operation and the fragment definitions. -/
structure Document where
  operation : List Selection
  fragments : List FragmentDef

/-- Modelled from the spec: a Selection Node (§3): one logical field invocation,
with its response key (alias or field name), the field name, the arguments as
supplied and the merged list of sub-selections. -/
structure SelectionNode where
  responseKey : String
  fieldName : String
  arguments : List (String × ArgValue)
  subSelections : List Selection

/-- Modelled from the spec: the merged, fragment-expanded selection structure
below a field (§4.5): per response key, the field name and the structure below
it. -/
inductive MergedField where
  | mk (responseKey fieldName : String) (children : List MergedField) : MergedField

/-- The response key of a merged field. -/
def MergedField.responseKey : MergedField → String
  | .mk k _ _ => k

/-- The merged fields below a merged field. -/
def MergedField.children : MergedField → List MergedField
  | .mk _ _ cs => cs

/-- Modelled from the spec: the execution metadata a resolver receives (§4.3 step
2, §6): the field name, the current response path and the merged sub-selections
of its own field, which `isFieldSelected` reads. -/
structure ResolveInfo where
  fieldName : String
  path : List GoValue
  selection : List MergedField

/-- Modelled from the spec: what a resolver receives (§6): the parent value, the
coerced arguments and the metadata. -/
structure ResolveParams where
  source : Value
  args : List (String × Value)
  info : ResolveInfo

/-- Modelled from the spec: a resolver (§6) returns a value or raises a failure. -/
abbrev Resolver := ResolveParams → Except GoError Value

/-- Modelled from the spec: an argument definition (§3): name, declared type and
optional default. -/
structure ArgumentDef where
  name : String
  type : Ty
  defaultValue : Option Value

/-- Modelled from the spec: a field definition (§3): declared output type,
argument definitions in order, optional resolver. -/
structure Field where
  name : String
  type : Ty
  args : List ArgumentDef
  resolve : Option Resolver

/-- Modelled from the spec: the definition of a named type (§3, §4.3 step 3). A
scalar brings its serialization rule and the rule that coerces an argument; an
enum the name of each declared internal value; an object the interfaces it
implements and its fields; an interface or union (`abstract`) its possible object
types and the callback that resolves the runtime type of a value. -/
inductive TypeDef where
  | scalar (serialize : Value → Option Value) (parseValue : Value → Option Value) : TypeDef
  | enum (nameOf : Value → Option String) : TypeDef
  | object (interfaces : List String) (fields : List Field) : TypeDef
  | abstract (possibleTypes : List String) (resolveType : Value → Option String) : TypeDef

/-- Modelled from the spec: the schema (§3, glossary): the named types and the
name of the root object type of queries. -/
structure Schema where
  queryType : String
  types : List (String × TypeDef)

/-- The ways the engine stops without a response: the step budget of the model
is used up, or a construction failure (§4.2, §7). -/
inductive Failure where
  | outOfFuel : Failure
  | construction (reason : String) : Failure

/-- The fields of a named type, when it is an object type of the schema. -/
def Schema.fieldsOf (schema : Schema) (typeName : String) : Option (List Field) :=
  match schema.types.lookup typeName with
  | some (.object _ fields) => some fields
  | _ => none

/-- The definition of a field of an object type, looked up by name. -/
def Schema.fieldDef (schema : Schema) (typeName fieldName : String) : Option Field :=
  match schema.fieldsOf typeName with
  | some fields => fields.find? (fun f => f.name == fieldName)
  | none => none

/-- Modelled from the spec: fragment type-condition matching (§4.2): the runtime
object type satisfies the condition when it is that type, implements the named
interface, or is a member of the named union. -/
def Schema.typeSatisfies (schema : Schema) (runtimeType condition : String) : Bool :=
  runtimeType == condition ||
  (match schema.types.lookup runtimeType with
   | some (.object interfaces _) => interfaces.contains condition
   | _ => false) ||
  (match schema.types.lookup condition with
   | some (.abstract possibleTypes _) => possibleTypes.contains runtimeType
   | _ => false)

/-- Modelled from the spec: the merge rule of §4.2: a selection sharing a response
key with an earlier one is merged into it when both name the same field, the
sub-selections being unioned; conflicting field names under one key are a
construction failure; a new key goes last (first-occurrence order). -/
def mergeNode (node : SelectionNode) : List SelectionNode → Except Failure (List SelectionNode)
  | [] => .ok [node]
  | n :: ns =>
    if n.responseKey = node.responseKey then
      if n.fieldName = node.fieldName then
        .ok ({ n with subSelections := n.subSelections ++ node.subSelections } :: ns)
      else .error (.construction ("conflicting fields for " ++ node.responseKey))
    else
      match mergeNode node ns with
      | .ok ns' => .ok (n :: ns')
      | .error e => .error e

/-- Modelled from the spec: the Selection-Set Resolver (§4.2): the selections
targeting an object of runtime type `runtimeType` (direct fields, fragment spreads
and inline fragments whose type condition is satisfied) merged into `acc`, one
node per response key in first-occurrence order. Each selection visited costs one
unit of `fuel`. -/
def collectFields (schema : Schema) (fragments : List FragmentDef) (runtimeType : String) :
    Nat → List Selection → List SelectionNode → Except Failure (List SelectionNode)
  | 0, _, _ => .error .outOfFuel
  | _ + 1, [], acc => .ok acc
  | fuel + 1, sel :: rest, acc =>
    match sel with
    | .field fieldAlias name arguments selectionSet =>
      match mergeNode ⟨fieldAlias.getD name, name, arguments, selectionSet⟩ acc with
      | .ok acc' => collectFields schema fragments runtimeType fuel rest acc'
      | .error e => .error e
    | .fragmentSpread name =>
      match fragments.find? (fun f => f.name == name) with
      | none => .error (.construction ("unknown fragment " ++ name))
      | some f =>
        if schema.typeSatisfies runtimeType f.typeCondition then
          match collectFields schema fragments runtimeType fuel f.selectionSet acc with
          | .ok acc' => collectFields schema fragments runtimeType fuel rest acc'
          | .error e => .error e
        else collectFields schema fragments runtimeType fuel rest acc
    | .inlineFragment typeCondition selectionSet =>
      if (match typeCondition with
          | some c => schema.typeSatisfies runtimeType c
          | none => true) then
        match collectFields schema fragments runtimeType fuel selectionSet acc with
        | .ok acc' => collectFields schema fragments runtimeType fuel rest acc'
        | .error e => .error e
      else collectFields schema fragments runtimeType fuel rest acc

/-- A function with failures applied to the elements of a list in order. -/
def mapExcept {α β : Type} (f : α → Except Failure β) : List α → Except Failure (List β)
  | [] => .ok []
  | a :: as =>
    match f a with
    | .error e => .error e
    | .ok b =>
      match mapExcept f as with
      | .error e => .error e
      | .ok bs => .ok (b :: bs)

/-- Modelled from the spec: the fully merged, fragment-expanded selection
structure below a field whose declared named type is `typeName` (§4.5): the
selections merged per §4.2 against that type, and below each merged field the
structure of its own sub-selections against its declared type. -/
def mergeTree (schema : Schema) (fragments : List FragmentDef) :
    Nat → String → List Selection → Except Failure (List MergedField)
  | 0, _, _ => .error .outOfFuel
  | fuel + 1, typeName, selections =>
    match collectFields schema fragments typeName (fuel + 1) selections [] with
    | .error e => .error e
    | .ok nodes =>
      mapExcept (fun node =>
        match node.subSelections, schema.fieldDef typeName node.fieldName with
        | [], _ => .ok (.mk node.responseKey node.fieldName [])
        | _, none => .ok (.mk node.responseKey node.fieldName [])
        | sub, some fd =>
          match mergeTree schema fragments fuel fd.type.typeName sub with
          | .error e => .error e
          | .ok children => .ok (.mk node.responseKey node.fieldName children)) nodes

/-- The segments of a path pattern, split at `/`. -/
def pathSegments : List Char → List (List Char)
  | [] => [[]]
  | c :: cs =>
    if c = '/' then [] :: pathSegments cs
    else
      match pathSegments cs with
      | seg :: segs => (c :: seg) :: segs
      | [] => [[c]]

/-- The response keys a path pattern such as `/a/b` names, in order. -/
def patternKeys (pattern : String) : List String :=
  ((pathSegments pattern.data).filter (fun seg => !seg.isEmpty)).map String.mk

/-- Modelled from the spec: a path of response keys is present in a merged
selection structure (§4.5): the first key is among the merged fields and the rest
of the path is present below it. -/
def selectedPath : List MergedField → List String → Bool
  | _, [] => true
  | fields, key :: rest =>
    match fields.find? (fun f => f.responseKey == key) with
    | some f => selectedPath f.children rest
    | none => false

/-- Modelled from the spec: `isFieldSelected(pattern)` (§4.5), asked by a resolver
of the merged sub-selections of its own field: a path `/a/b` holds when key `a`,
and within it key `b`, is present. The pattern `*` is not modelled: for a field
without sub-selections the specification makes it false while the test of the
sources expects it to hold, and no property below reads it. -/
def ResolveInfo.isFieldSelected (info : ResolveInfo) (pattern : String) : Bool :=
  selectedPath info.selection (patternKeys pattern)

/-- A partial function applied to the elements of a list in order. -/
def mapOption {α β : Type} (f : α → Option β) : List α → Option (List β)
  | [] => some []
  | a :: as =>
    match f a with
    | none => none
    | some b =>
      match mapOption f as with
      | none => none
      | some bs => some (b :: bs)

/-- Modelled from the spec: the coercion of a supplied argument value against the
declared type of the argument (§3, §4.3 step 1): a scalar applies its own rule, a
list coerces each element, NonNull rejects null. -/
def coerceArgument (schema : Schema) : Ty → Value → Option Value
  | .named n, v =>
    match v with
    | .null => some .null
    | _ =>
      match schema.types.lookup n with
      | some (.scalar _ parseValue) => parseValue v
      | _ => none
  | .list elem, v =>
    match v with
    | .null => some .null
    | .list items =>
      (mapOption (fun item => coerceArgument schema elem item) items).map Value.list
    | _ => none
  | .nonNull inner, v =>
    match coerceArgument schema inner v with
    | some .null => none
    | coerced => coerced

/-- Modelled from the spec: the coercion of the declared arguments of a field from
the literals and variables of the query (§4.3 step 1), in declared order; an
argument that is not supplied takes its default or stays absent; the name of an
argument whose value cannot be coerced is the failure. -/
def coerceArguments (schema : Schema) (vars : List (String × Value))
    (supplied : List (String × ArgValue)) : List ArgumentDef → Except String (List (String × Value))
  | [] => .ok []
  | d :: ds =>
    match coerceArguments schema vars supplied ds with
    | .error name => .error name
    | .ok rest =>
      let raw : Option Value :=
        match supplied.lookup d.name with
        | some (.literal v) => some v
        | some (.variable x) => vars.lookup x
        | none => none
      match raw with
      | some v =>
        match coerceArgument schema d.type v with
        | some v' => .ok ((d.name, v') :: rest)
        | none => .error d.name
      | none =>
        match d.defaultValue with
        | some v => .ok ((d.name, v) :: rest)
        | none => .ok rest

/-- Modelled from the spec: the outcome at one position of the response (§4.3
steps 3 and 4): the value, or `none` when the position failed and the failure is
still to be absorbed by a nullable ancestor, and the errors recorded below. -/
structure Completed where
  value : Option Value
  errors : List FormattedError

/-- Modelled from the spec: a field-level failure with its response path, passed
through the formatting function (§3, §4.4): the failure is located by wrapping it
in an `Error` of `gqlerrors` that carries the path. -/
def fieldError (message : String) (original : GoError) (path : List GoValue) : FormattedError :=
  formatErrorPtr (.mk message none (some path) original)

/-- A failed position with one error raised by the engine itself. -/
def failedWith (message : String) (path : List GoValue) : Completed :=
  ⟨none, [fieldError message (errorsNew message) path]⟩

/-- Modelled from the spec: the elements of a list, each coerced as its own node at
an appended list-index path segment (§4.3 step 3); a failed element becomes null,
or fails the list when the element type is NonNull (step 4). -/
def completeItems (completeItem : Value → List GoValue → Except Failure Completed)
    (elemNonNull : Bool) (path : List GoValue) :
    Nat → List Value → Except Failure (Option (List Value) × List FormattedError)
  | _, [] => .ok (some [], [])
  | idx, item :: rest =>
    match completeItem item (path ++ [.int idx]) with
    | .error e => .error e
    | .ok r =>
      match completeItems completeItem elemNonNull path (idx + 1) rest with
      | .error e => .error e
      | .ok (values, errs) =>
        match r.value with
        | some v => .ok (values.map (fun vs => v :: vs), r.errors ++ errs)
        | none =>
          if elemNonNull then .ok (none, r.errors ++ errs)
          else .ok (values.map (fun vs => Value.null :: vs), r.errors ++ errs)

/-- Modelled from the spec: the coercion of a raw result against a declared output
type (§4.3 step 3), given the coercion against named types: List coerces each
element of an ordered sequence (a null list is permitted); NonNull turns a null
into a non-null violation and passes a failure on. -/
def completeType (completeNamed : String → Value → List GoValue → Except Failure Completed) :
    Ty → Value → List GoValue → Except Failure Completed
  | .named n, raw, path => completeNamed n raw path
  | .list elem, raw, path =>
    match raw with
    | .null => .ok ⟨some .null, []⟩
    | .list items =>
      match completeItems (fun item p => completeType completeNamed elem item p)
          elem.isNonNull path 0 items with
      | .error e => .error e
      | .ok (some values, errs) => .ok ⟨some (.list values), errs⟩
      | .ok (none, errs) => .ok ⟨none, errs⟩
    | _ => .ok (failedWith "expected an ordered sequence" path)
  | .nonNull inner, raw, path =>
    match completeType completeNamed inner raw path with
    | .error e => .error e
    | .ok r =>
      match r.value with
      | some .null =>
        .ok ⟨none, r.errors ++ [fieldError "cannot return null for non-nullable field"
          (errorsNew "cannot return null for non-nullable field") path]⟩
      | _ => .ok r

/-- What one execution reads throughout: schema, fragment definitions, variables. -/
structure ExecContext where
  schema : Schema
  fragments : List FragmentDef
  vars : List (String × Value)

/-- Modelled from the spec: one Selection Node executed against a parent value
(§4.3 steps 1 to 3): the arguments are coerced, the resolver of the field, or the
Default Resolution Strategy when it has none, gives the raw value, and the raw
value is coerced against the declared type. The result is `none` when the object
type has no such field, else whether the declared type is NonNull and the
outcome. -/
def executeField (ctx : ExecContext)
    (complete : Ty → Value → List Selection → List GoValue → Except Failure Completed)
    (fuel : Nat) (typeName : String) (parent : Value) (path : List GoValue)
    (node : SelectionNode) : Except Failure (Option (Bool × Completed)) :=
  match ctx.schema.fieldDef typeName node.fieldName with
  | none => .ok none
  | some fd =>
    let path' := path ++ [.str node.responseKey]
    match coerceArguments ctx.schema ctx.vars node.arguments fd.args with
    | .error name =>
      .ok (some (fd.type.isNonNull, failedWith ("invalid value for argument " ++ name) path'))
    | .ok args =>
      match mergeTree ctx.schema ctx.fragments fuel fd.type.typeName node.subSelections with
      | .error e => .error e
      | .ok selection =>
        let raw : Except GoError Value :=
          match fd.resolve with
          | some resolver => resolver ⟨parent, args, ⟨node.fieldName, path', selection⟩⟩
          | none => .ok (defaultResolve parent node.responseKey node.fieldName)
        match raw with
        | .error err =>
          .ok (some (fd.type.isNonNull, ⟨none, [fieldError (err.Error.getD "") err path']⟩))
        | .ok v =>
          match complete fd.type v node.subSelections path' with
          | .error e => .error e
          | .ok r => .ok (some (fd.type.isNonNull, r))

/-- Modelled from the spec: the fields of one object assembled in selection order
(§4.3 steps 4 and 5, §5): a failed nullable field is null, a failed NonNull field
fails the object, and a failure never stops the siblings, whose errors are all
kept. -/
def executeNodes (execField : SelectionNode → Except Failure (Option (Bool × Completed))) :
    List SelectionNode → Except Failure (Option (List (String × Value)) × List FormattedError)
  | [] => .ok (some [], [])
  | node :: rest =>
    match execField node with
    | .error e => .error e
    | .ok fieldResult =>
      match executeNodes execField rest with
      | .error e => .error e
      | .ok (entries, errs) =>
        match fieldResult with
        | none => .ok (entries, errs)
        | some (nonNull, r) =>
          match r.value with
          | some v => .ok (entries.map (fun es => (node.responseKey, v) :: es), r.errors ++ errs)
          | none =>
            if nonNull then .ok (none, r.errors ++ errs)
            else
              .ok (entries.map (fun es => (node.responseKey, Value.null) :: es),
                r.errors ++ errs)

/-- Modelled from the spec: `resolveObject` (§4.3): the selections are merged for
the object type (§4.2) and the merged nodes executed against the value. -/
def executeObject (ctx : ExecContext)
    (complete : Ty → Value → List Selection → List GoValue → Except Failure Completed)
    (fuel : Nat) (typeName : String) (parent : Value) (selections : List Selection)
    (path : List GoValue) : Except Failure Completed :=
  match collectFields ctx.schema ctx.fragments typeName fuel selections [] with
  | .error e => .error e
  | .ok nodes =>
    match executeNodes (executeField ctx complete fuel typeName parent path) nodes with
    | .error e => .error e
    | .ok (some entries, errs) => .ok ⟨some (.mapping entries), errs⟩
    | .ok (none, errs) => .ok ⟨none, errs⟩

/-- Modelled from the spec: the coercion of a raw result against a named type
(§4.3 step 3): a scalar applies its serialization rule, an enum requires a
declared internal value, an object recurses into its own selections, an interface
or union first resolves the runtime object type. Each object level costs one unit
of `fuel`. -/
def completeNamed (ctx : ExecContext) :
    Nat → String → Value → List Selection → List GoValue → Except Failure Completed
  | 0, _, _, _, _ => .error .outOfFuel
  | fuel + 1, typeName, raw, sub, path =>
    match raw with
    | .null => .ok ⟨some .null, []⟩
    | _ =>
      match ctx.schema.types.lookup typeName with
      | none => .error (.construction ("unknown type " ++ typeName))
      | some (.scalar serialize _) =>
        match serialize raw with
        | some v => .ok ⟨some v, []⟩
        | none => .ok (failedWith ("cannot serialize as " ++ typeName) path)
      | some (.enum nameOf) =>
        match nameOf raw with
        | some name => .ok ⟨some (.str name), []⟩
        | none => .ok (failedWith ("not a value of " ++ typeName) path)
      | some (.object _ _) =>
        executeObject ctx
          (fun ty v s p => completeType (fun n v' p' => completeNamed ctx fuel n v' s p') ty v p)
          fuel typeName raw sub path
      | some (.abstract _ resolveType) =>
        match resolveType raw with
        | none => .ok (failedWith ("cannot resolve the runtime type of " ++ typeName) path)
        | some runtimeType =>
          executeObject ctx
            (fun ty v s p =>
              completeType (fun n v' p' => completeNamed ctx fuel n v' s p') ty v p)
            fuel runtimeType raw sub path

/-- Modelled from the spec: the response (§6): the data, `none` being null, and
the ordered list of formatted errors. -/
structure Response where
  data : Option Value
  errors : List FormattedError

/-- Modelled from the spec: the entry point `execute` (§1, §4.3): the selections of
the operation executed on the root object type against the root value. -/
def execute (fuel : Nat) (schema : Schema) (document : Document) (rootValue : Value)
    (vars : List (String × Value)) : Except Failure Response :=
  let ctx : ExecContext := ⟨schema, document.fragments, vars⟩
  match executeObject ctx
      (fun ty v s p => completeType (fun n v' p' => completeNamed ctx fuel n v' s p') ty v p)
      fuel schema.queryType rootValue document.operation [] with
  | .error e => .error e
  | .ok r => .ok ⟨r.value, r.errors⟩

/-- Modelled from the spec: the coercion of a raw result against the declared
output type of a field (§4.3 step 3), as `executeObject` is given it by `execute`
and `completeNamed`: `completeType` over the coercion against named types, with
the sub-selections of the field. -/
def completeValue (ctx : ExecContext) (fuel : Nat) (type : Ty) (raw : Value)
    (sub : List Selection) (path : List GoValue) : Except Failure Completed :=
  completeType (fun n v p => completeNamed ctx fuel n v sub p) type raw path

/-- The field `test` declared `String!`. -/
def nonNullTestField : Field := ⟨"test", .nonNull (.named "String"), [], none⟩

/-- The field `test` declared `[String]`. -/
def listTestField : Field := ⟨"test", .list (.named "String"), [], none⟩

/-! ### The schemas and documents of `executor_resolve_test.go` -/

/-- Modelled from the spec: the built-in scalar `graphql.String`, declared outside
the sources. The specification gives a scalar a serialization rule without
spelling it out; here a string serializes to itself, an integer to its decimal
form and a boolean to `true` or `false`, and an argument must be a string. -/
def stringType : TypeDef :=
  .scalar
    (fun v =>
      match v with
      | .str s => some (.str s)
      | .int i => some (.str (toString i))
      | .bool b => some (.str (if b then "true" else "false"))
      | _ => none)
    (fun v =>
      match v with
      | .str s => some (.str s)
      | _ => none)

/-- Modelled from the spec: the built-in scalar `graphql.Int`, declared outside the
sources; an integer serializes to itself, as does an integer argument. -/
def intType : TypeDef :=
  .scalar
    (fun v =>
      match v with
      | .int i => some (.int i)
      | _ => none)
    (fun v =>
      match v with
      | .int i => some (.int i)
      | _ => none)

/-- `testSchema`: the schema whose query type `Query` has the one field `test`;
`named` holds the named types the field refers to besides the built-in scalars. -/
def testSchema (testField : Field) (named : List (String × TypeDef)) : Schema :=
  ⟨"Query", [("Query", .object [] [testField]), ("String", stringType), ("Int", intType)]
    ++ named⟩

/-- The field `test` of `TestExecutesResolveFunction_DefaultFunctionAccessesProperties`
and `..._DefaultFunctionCallsMethods`: `&graphql.Field{Type: graphql.String}`. -/
def plainTestField : Field := ⟨"test", .named "String", [], none⟩

/-- The document `{ test }`. -/
def queryTest : Document := ⟨[.field none "test" [] []], []⟩

/-- The argument `p.Args[name].(string)`: the string, or `""` when the argument is
absent or no string. -/
def argString (args : List (String × Value)) (name : String) : String :=
  match args.lookup name with
  | some (.str s) => s
  | _ => ""

/-- The argument `p.Args[name].(int)`: the integer, or `0` when the argument is
absent or no integer. -/
def argInt (args : List (String × Value)) (name : String) : Int :=
  match args.lookup name with
  | some (.int i) => i
  | _ => 0

/-- The arguments `aStr: String` and `aInt: Int` of the field `test`. -/
def testArgs : List ArgumentDef :=
  [⟨"aStr", .named "String", none⟩, ⟨"aInt", .named "Int", none⟩]

/-- The schema of `..._SourceIsStruct_WithoutJSONTags`: `test` resolves to a
`SubObjectWithoutJSONTags{Str, Int}` built from the arguments; the fields `Str`
and `Int` of `SubObject` have no resolver. -/
def schemaWithoutJSONTags : Schema :=
  testSchema
    ⟨"test", .named "SubObject", testArgs, some (fun p =>
      .ok (.record [("Str", none, .str (argString p.args "aStr")),
                    ("Int", none, .int (argInt p.args "aInt"))]))⟩
    [("SubObject", .object []
      [⟨"Str", .named "String", [], none⟩, ⟨"Int", .named "Int", [], none⟩])]

/-- The schema of `..._SourceIsStruct_WithJSONTags`: `test` resolves to a
`SubObjectWithJSONTags` with the members `OtherField` (tag `""`), `Str` (tag
`str`) and `Int` (tag `int`); the fields `str` and `int` of `SubObject` have no
resolver. -/
def schemaWithJSONTags : Schema :=
  testSchema
    ⟨"test", .named "SubObject", testArgs, some (fun p =>
      .ok (.record [("OtherField", some "", .str ""),
                    ("Str", some "str", .str (argString p.args "aStr")),
                    ("Int", some "int", .int (argInt p.args "aInt"))]))⟩
    [("SubObject", .object []
      [⟨"str", .named "String", [], none⟩, ⟨"int", .named "Int", [], none⟩])]

/-- The arguments `(aInt: -123, aStr: "String!")`. -/
def bothArgs : List (String × ArgValue) :=
  [("aInt", .literal (.int (-123))), ("aStr", .literal (.str "String!"))]

/-- The document `{ test(aInt: -123, aStr: "String!") { Str, Int } }`. -/
def queryStrIntUpper : Document :=
  ⟨[.field none "test" bothArgs [.field none "Str" [] [], .field none "Int" [] []]], []⟩

/-- The document `{ test(aInt: -123, aStr: "String!") { str, int } }`. -/
def queryStrIntLower : Document :=
  ⟨[.field none "test" bothArgs [.field none "str" [] [], .field none "int" [] []]], []⟩

/-- The schema of `testIsSelected`: `test` resolves to `struct{}{}` after its two
assertions, `IsFieldSelected("/str")` and not `IsFieldSelected("/int")`; an
assertion that does not hold (`t.Error`) is a failure raised by the resolver. The
field `str` of `SubObject` resolves to `0` (its assertion on the pattern `*` is
not part of the model) and `int` has no resolver. -/
def testIsSelected : Schema :=
  testSchema
    ⟨"test", .named "SubObject", [], some (fun p =>
      if !p.info.isFieldSelected "/str" then .error (errorsNew "expect '/str' selected")
      else if p.info.isFieldSelected "/int" then
        .error (errorsNew "expect '/int' not selected")
      else .ok (.record []))⟩
    [("SubObject", .object []
      [⟨"str", .named "String", [], some (fun _ => .ok (.int 0))⟩,
       ⟨"int", .named "Int", [], none⟩])]

/-- The document `{ test { str } }`. -/
def queryByField : Document :=
  ⟨[.field none "test" [] [.field none "str" [] []]], []⟩

/-- The document
`{ test { ... SubObjectFragment } } fragment SubObjectFragment on SubObject { str }`. -/
def queryByFragment : Document :=
  ⟨[.field none "test" [] [.fragmentSpread "SubObjectFragment"]],
   [⟨"SubObjectFragment", "SubObject", [.field none "str" [] []]⟩]⟩

/-- The document `{ test { ... on SubObject { str } } }`. -/
def queryByInlineFragment : Document :=
  ⟨[.field none "test" [] [.inlineFragment (some "SubObject") [.field none "str" [] []]]], []⟩

end Executor

/-! ## Formatting: idempotence and extension copying -/

/-- `FormatError` panics on the nil interface only. -/
theorem FormatError_eq_none_iff (e : GoError) : FormatError e = none ↔ e = .nil := by
  cases e <;> simp [FormatError, GoError.Error]

/-- C1: `FormatError` is idempotent. A `FormattedError` passed to it comes back as
the identical value, every field unchanged; hence formatting the result of
`FormatError(e)` again gives that same result, for every error `e` (on the nil
interface both calls panic, and only there). -/
theorem FormatError_idempotent :
    (∀ f : FormattedError, FormatError (.formatted f) = some f) ∧
    (∀ e : GoError,
      (FormatError e).bind (fun r => FormatError (.formatted r)) = FormatError e) ∧
    (∀ e : GoError, FormatError e = none ↔ e = .nil) := by
  refine ⟨fun f => rfl, fun e => ?_, FormatError_eq_none_iff⟩
  cases h : FormatError e with
  | none => rfl
  | some r => rfl

/-- C2: for a `*Error` whose `OriginalError` is non-nil and implements
`ExtendedError`, `FormatError` returns a value whose `Extensions` is the mapping
`OriginalError.Extensions()` returns; when the original error is one of the four
kinds of `common.go`, `Extensions["code"]` is the code of that kind. -/
theorem FormatError_errorPtr_copies_extensions (err : Error) (m : ExtMap)
    (hnil : err.OriginalError ≠ .nil) (hext : err.OriginalError.asExtended = some m) :
    ∃ r : FormattedError, FormatError (.errorPtr err) = some r ∧ r.Extensions = m ∧
      (∀ msg, err.OriginalError = .forbiddenError msg →
        r.Extensions.lookup "code" = some (.str "FORBIDDEN")) ∧
      (∀ msg, err.OriginalError = .unauthorizedError msg →
        r.Extensions.lookup "code" = some (.str "UNAUTHORIZED")) ∧
      (∀ arguments, err.OriginalError = .badArgumentError arguments →
        r.Extensions.lookup "code" = some (.str "BAD_USER_INPUT")) ∧
      (∀ msg, err.OriginalError = .internalServerError msg →
        r.Extensions.lookup "code" = some (.str "INTERNAL_SERVER_ERROR")) := by
  obtain ⟨M, L, P, orig⟩ := err
  simp only [Error.OriginalError] at hnil hext
  have hr : (formatErrorPtr (.mk M L P orig)).Extensions = m := by
    cases orig <;>
      simp_all [formatErrorPtr, Error.OriginalError, FormattedError.Extensions,
        FormattedError.Message, FormattedError.Locations, FormattedError.Path,
        FormattedError.originalError, GoError.asExtended]
  refine ⟨formatErrorPtr (.mk M L P orig), rfl, hr, ?_, ?_, ?_, ?_⟩ <;>
    · intro x hx
      simp only [Error.OriginalError] at hx
      subst hx
      simp only [GoError.asExtended, Option.some.injEq] at hext
      rw [hr, ← hext]
      rfl

/-- C2, at a concrete input: a `*Error` wrapping `Forbidden("denied")` of
`common.go` is formatted with the extensions `code: FORBIDDEN`. -/
theorem FormatError_errorPtr_copies_extensions_witness :
    (Error.mk "denied" none none (Common.Forbidden "denied")).OriginalError ≠ .nil ∧
    (Error.mk "denied" none none (Common.Forbidden "denied")).OriginalError.asExtended
      = some (some [("code", .str "FORBIDDEN")]) ∧
    ∃ r : FormattedError,
      FormatError (.errorPtr (.mk "denied" none none (Common.Forbidden "denied"))) = some r ∧
      r.Extensions = some [("code", .str "FORBIDDEN")] :=
  have hnil : (Error.mk "denied" none none (Common.Forbidden "denied")).OriginalError ≠ .nil := by
    simp [Error.OriginalError, Common.Forbidden]
  ⟨hnil, rfl,
    (FormatError_errorPtr_copies_extensions
      (.mk "denied" none none (Common.Forbidden "denied"))
      (some [("code", .str "FORBIDDEN")]) hnil rfl).imp
      (fun _ h => ⟨h.1, h.2.1⟩)⟩

/-- C3, evaluated at `FormatError(Forbidden("denied"))` with `Forbidden` of
`common.go`: the argument implements `ExtendedError` and its `Extensions()` is
`code: FORBIDDEN`, yet it is formatted by the default case, which leaves
`Extensions` nil. -/
theorem FormatError_direct_extended_drops_extensions :
    (Common.Forbidden "denied").asExtended = some (some [("code", .str "FORBIDDEN")]) ∧
    FormatError (Common.Forbidden "denied")
      = some (.mk "denied" (some []) none none (.forbiddenError "denied")) ∧
    (FormatError (Common.Forbidden "denied")).map FormattedError.Extensions = some none := by
  simp [FormatError, GoError.Error, GoError.asExtended, Common.Forbidden,
    Common.ForbiddenError.Error, Common.ForbiddenError.Extensions, FormattedError.Extensions]

/-- C4: an error that is neither a `FormattedError` nor an `Error` / `*Error` and
that has no `Extensions` method is formatted with `Message = e.Error()`, an empty
non-nil `Locations`, a nil `Path` and nil `Extensions`. -/
theorem FormatError_plain (e : GoError) (hnil : e ≠ .nil)
    (hf : ∀ f, e ≠ .formatted f) (hp : ∀ x, e ≠ .errorPtr x) (hv : ∀ x, e ≠ .errorVal x)
    (hext : e.asExtended = none) :
    ∃ (msg : String) (r : FormattedError), e.Error = some msg ∧ FormatError e = some r ∧
      r.Message = msg ∧ r.Locations = some [] ∧ r.Path = none ∧ r.Extensions = none := by
  cases e with
  | nil => exact absurd rfl hnil
  | formatted f => exact absurd rfl (hf f)
  | errorPtr x => exact absurd rfl (hp x)
  | errorVal x => exact absurd rfl (hv x)
  | forbiddenError msg => simp [GoError.asExtended, Common.ForbiddenError.Extensions] at hext
  | unauthorizedError msg =>
    simp [GoError.asExtended, Common.UnauthorizedError.Extensions] at hext
  | badArgumentError arguments =>
    simp [GoError.asExtended, Common.BadArgumentError.Extensions] at hext
  | internalServerError msg =>
    simp [GoError.asExtended, Common.InternalServerError.Extensions] at hext
  | other msg ext =>
    exact ⟨msg, .mk msg (some []) none none (.other msg ext), rfl, rfl, rfl, rfl, rfl, rfl⟩

/-- C4, at a concrete input: the error `errors.New("boom")`. -/
theorem FormatError_plain_witness :
    ∃ (msg : String) (r : FormattedError), (errorsNew "boom").Error = some msg ∧
      FormatError (errorsNew "boom") = some r ∧
      r.Message = msg ∧ r.Locations = some [] ∧ r.Path = none ∧ r.Extensions = none :=
  FormatError_plain (errorsNew "boom") (by simp [errorsNew]) (by simp [errorsNew])
    (by simp [errorsNew]) (by simp [errorsNew]) rfl

/-! ## The built-in error kinds -/

/-- C5: each built-in kind carries one fixed code, whatever its message or
argument list: `Extensions()` of the four error types of `common.go` is the
one-entry mapping with `code` bound to `FORBIDDEN`, `UNAUTHORIZED`,
`BAD_USER_INPUT` and `INTERNAL_SERVER_ERROR`, and the constructors `Forbidden`,
`Unauthorized`, `UserInputError` and `InternalError` of `formatted.go` return a
value whose `Extensions` is that same mapping. -/
theorem builtin_extensions_fixed :
    (∀ msg, (Common.Forbidden msg).asExtended = some (some [("code", .str "FORBIDDEN")])) ∧
    (∀ msg, (Common.Unauthorized msg).asExtended
      = some (some [("code", .str "UNAUTHORIZED")])) ∧
    (∀ arguments, (Common.UserInputError arguments).asExtended
      = some (some [("code", .str "BAD_USER_INPUT")])) ∧
    (∀ msg, (Common.InternalError msg).asExtended
      = some (some [("code", .str "INTERNAL_SERVER_ERROR")])) ∧
    (∀ msg, (Formatted.Forbidden msg).Extensions = some [("code", .str "FORBIDDEN")]) ∧
    (∀ msg, (Formatted.Unauthorized msg).Extensions = some [("code", .str "UNAUTHORIZED")]) ∧
    (∀ msg wh, (Formatted.UserInputError msg wh).Extensions
      = some [("code", .str "BAD_USER_INPUT")]) ∧
    (∀ msg, (Formatted.InternalError msg).Extensions
      = some [("code", .str "INTERNAL_SERVER_ERROR")]) :=
  ⟨fun _ => rfl, fun _ => rfl, fun _ => rfl, fun _ => rfl,
   fun _ => rfl, fun _ => rfl, fun _ _ => rfl, fun _ => rfl⟩

/-- C6: for the error kinds of `common.go`, the `Error()` message of
`Forbidden(msg)`, `Unauthorized(msg)` and `InternalError(msg)` is `msg` when `msg`
is non-empty and the default of the kind when `msg` is empty. -/
theorem common_error_message (msg : String) :
    (Common.Forbidden msg).Error
      = some (if msg = "" then "authentication failure, permission denied" else msg) ∧
    (Common.Unauthorized msg).Error
      = some (if msg = "" then "unauthorized user" else msg) ∧
    (Common.InternalError msg).Error
      = some (if msg = "" then "internal server error" else msg) := by
  by_cases h : msg = "" <;>
    simp [h, GoError.Error, Common.Forbidden, Common.Unauthorized, Common.InternalError,
      Common.ForbiddenError.Error, Common.UnauthorizedError.Error,
      Common.InternalServerError.Error]

/-- C7, evaluated at `InternalError("")` of `formatted.go`: the message is
`"internal error"`, not the default `"internal server error"` that the error type
of the same kind in `common.go` returns for the empty message. -/
theorem formatted_InternalError_default_message :
    (Formatted.InternalError "").Message = "internal error" ∧
    (Formatted.InternalError "").Message ≠ "internal server error" ∧
    (Common.InternalError "").Error = some "internal server error" := by
  refine ⟨rfl, ?_, rfl⟩
  show "internal error" ≠ "internal server error"
  decide

/-- Quoting distributes over `strings.Join`: the names joined by `"', '"` and
wrapped in one pair of quotes are the quoted names joined by `", "`. -/
theorem quoted_join (a : String) (rest : List String) :
    "'" ++ Common.stringsJoin (a :: rest) "', '" ++ "'"
      = Common.stringsJoin ((a :: rest).map quoted) ", " := by
  induction rest generalizing a with
  | nil => rfl
  | cons b r ih =>
    have hsep : ("', '" : String) = "'" ++ ", " ++ "'" := by decide
    have ih' := ih b
    simp only [List.map_cons] at ih'
    simp only [List.map_cons, Common.stringsJoin]
    rw [← ih', hsep]
    simp only [quoted, String.append_assoc]

/-- The elements of a list occur, in order, in their `strings.Join`. -/
theorem occurInOrder_join (names : List String) (sep post : String) :
    OccurInOrder names (Common.stringsJoin names sep ++ post) := by
  induction names generalizing post with
  | nil => trivial
  | cons a rest ih =>
    cases rest with
    | nil => exact ⟨"", post, by simp [Common.stringsJoin], trivial⟩
    | cons b r =>
      refine ⟨"", sep ++ (Common.stringsJoin (b :: r) sep ++ post), ?_, ?_⟩
      · simp [Common.stringsJoin, String.append_assoc]
      · obtain ⟨pre, rest', h, hr⟩ := ih post
        exact ⟨sep ++ pre, rest', by rw [h]; simp [String.append_assoc], hr⟩

/-- C8: for a non-empty list of argument names, the `Error()` message of
`UserInputError(args)` of `common.go` is each name wrapped in single quotes, joined
by `", "` in the given order, followed by `" has some errors, please check it"`,
so that the names occur in the message in order; for the empty list (nil or not)
the message is `"bad argument(s)"`. -/
theorem badArgument_error_message :
    (∀ names : List String, names ≠ [] →
      (Common.UserInputError (some names)).Error = some (badArgumentMessageSpec names) ∧
      ∃ m, (Common.UserInputError (some names)).Error = some m ∧ OccurInOrder names m) ∧
    (Common.UserInputError (some [])).Error = some "bad argument(s)" ∧
    (Common.UserInputError none).Error = some "bad argument(s)" := by
  refine ⟨fun names hne => ?_, rfl, rfl⟩
  obtain ⟨a, rest, rfl⟩ := List.exists_cons_of_ne_nil hne
  have hmsg : (Common.UserInputError (some (a :: rest))).Error
      = some ("'" ++ Common.stringsJoin (a :: rest) "', '"
          ++ "' has some errors, please check it") := by
    simp [Common.UserInputError, GoError.Error, Common.BadArgumentError.Error, Slice.len]
  have htail : ("' has some errors, please check it" : String)
      = "'" ++ " has some errors, please check it" := by decide
  refine ⟨?_, _, hmsg, ?_⟩
  · rw [hmsg, badArgumentMessageSpec, ← quoted_join, htail]
    simp only [String.append_assoc]
  · obtain ⟨pre, rest', h, hr⟩ :=
      occurInOrder_join (a :: rest) "', '" "' has some errors, please check it"
    exact ⟨"'" ++ pre, rest', by
      rw [String.append_assoc "'", h]; simp only [String.append_assoc], hr⟩

/-- C8, at a concrete input: the names `id` and `name`. -/
theorem badArgument_error_message_witness :
    (Common.UserInputError (some ["id", "name"])).Error
      = some "'id', 'name' has some errors, please check it" := by
  have h := (badArgument_error_message.1 ["id", "name"] (by simp)).1
  rw [h]
  decide

/-! ## The serialized form -/

/-- C9: the serialized form of a `FormattedError` has exactly the keys `message`,
`locations`, `path`, `extensions`, in that order and none twice; `message` and
`locations` are always present, `path` is present exactly when `Path` is
non-empty, `extensions` exactly when `Extensions` is non-empty, and the original
error is not serialized (the members do not depend on it and no other key is
written). -/
theorem marshal_keys (encLoc : SourceLocation → JSON) (f : FormattedError) :
    List.Sublist (f.marshalKeys encLoc) ["message", "locations", "path", "extensions"] ∧
    "message" ∈ f.marshalKeys encLoc ∧
    "locations" ∈ f.marshalKeys encLoc ∧
    ("path" ∈ f.marshalKeys encLoc ↔ f.Path.len ≠ 0) ∧
    ("extensions" ∈ f.marshalKeys encLoc ↔ f.Extensions.len ≠ 0) ∧
    (∀ err : GoError,
      (FormattedError.mk f.Message f.Locations f.Path f.Extensions err).marshalMembers encLoc
        = f.marshalMembers encLoc) := by
  refine ⟨?_, ?_, ?_, ?_, ?_, fun err => ?_⟩
  · by_cases hp : f.Path.len = 0 <;> by_cases hx : f.Extensions.len = 0 <;>
      simp [FormattedError.marshalKeys, FormattedError.marshalMembers, hp, hx]
  · simp [FormattedError.marshalKeys, FormattedError.marshalMembers]
  · simp [FormattedError.marshalKeys, FormattedError.marshalMembers]
  · by_cases hp : f.Path.len = 0 <;> by_cases hx : f.Extensions.len = 0 <;>
      simp [FormattedError.marshalKeys, FormattedError.marshalMembers, hp, hx]
  · by_cases hp : f.Path.len = 0 <;> by_cases hx : f.Extensions.len = 0 <;>
      simp [FormattedError.marshalKeys, FormattedError.marshalMembers, hp, hx]
  · cases f
    rfl

/-! ## The `code` extension -/

/-- The nil mapping binds no key. -/
theorem not_hasCodeString_none : ¬ HasCodeString none := by
  rintro ⟨code, h⟩
  simp [ExtMap.lookup] at h

/-- C10 fails at `NewFormattedError("boom")`: the value returned has nil
`Extensions`, which binds no `code`. -/
theorem NewFormattedError_has_no_code :
    ∃ r : FormattedError, NewFormattedError "boom" = some r ∧ r.Extensions = none ∧
      ¬ HasCodeString r.Extensions :=
  ⟨.mk "boom" (some []) none none (errorsNew "boom"), rfl, rfl, not_hasCodeString_none⟩

/-- C10, amended: `FormatError` gives a `code` string to the errors that bring
one. For a `*Error` or `Error` whose `OriginalError` implements `ExtendedError`
and returns a mapping with `code` bound to a string (as the four kinds of
`common.go` do), the result has that mapping as `Extensions`; a `FormattedError`
that has such a mapping keeps it. For a `*Error` or `Error` whose `OriginalError`
has no extension mapping, and for `NewFormattedError(m)` for every `m`,
`Extensions` is nil and binds no `code`. -/
theorem FormatError_code_extension :
    (∀ (err : Error) (m : ExtMap), err.OriginalError.asExtended = some m → HasCodeString m →
      (∃ r : FormattedError, FormatError (.errorPtr err) = some r ∧ r.Extensions = m ∧
        HasCodeString r.Extensions) ∧
      (∃ r : FormattedError, FormatError (.errorVal err) = some r ∧ r.Extensions = m ∧
        HasCodeString r.Extensions)) ∧
    (∀ err : Error, err.OriginalError.isBuiltinKind = true →
      ∃ r : FormattedError, FormatError (.errorPtr err) = some r ∧
        HasCodeString r.Extensions) ∧
    (∀ f : FormattedError, HasCodeString f.Extensions →
      ∃ r : FormattedError, FormatError (.formatted f) = some r ∧
        HasCodeString r.Extensions) ∧
    (∀ err : Error, err.OriginalError.asExtended = none →
      (∃ r : FormattedError, FormatError (.errorPtr err) = some r ∧ r.Extensions = none ∧
        ¬ HasCodeString r.Extensions) ∧
      (∃ r : FormattedError, FormatError (.errorVal err) = some r ∧ r.Extensions = none ∧
        ¬ HasCodeString r.Extensions)) ∧
    (∀ msg : String, ∃ r : FormattedError, NewFormattedError msg = some r ∧
      r.Extensions = none ∧ ¬ HasCodeString r.Extensions) := by
  have hsome : ∀ (err : Error) (m : ExtMap), err.OriginalError.asExtended = some m →
      (formatErrorPtr err).Extensions = m := by
    rintro ⟨M, L, P, orig⟩ m h
    simp only [Error.OriginalError] at h
    cases orig <;>
      simp_all [formatErrorPtr, Error.OriginalError, FormattedError.Extensions,
        FormattedError.Message, FormattedError.Locations, FormattedError.Path,
        FormattedError.originalError, GoError.asExtended]
  have hnone : ∀ err : Error, err.OriginalError.asExtended = none →
      (formatErrorPtr err).Extensions = none := by
    rintro ⟨M, L, P, orig⟩ h
    simp only [Error.OriginalError] at h
    cases orig <;>
      simp_all [formatErrorPtr, Error.OriginalError, FormattedError.Extensions,
        FormattedError.Message, FormattedError.Locations, FormattedError.Path,
        FormattedError.originalError, GoError.asExtended]
  refine ⟨fun err m h hc => ?_, fun err he => ?_, fun f hf => ⟨f, rfl, hf⟩,
    fun err h => ?_, fun msg => ?_⟩
  · have hx := hsome err m h
    exact ⟨⟨_, rfl, hx, hx ▸ hc⟩, ⟨_, rfl, hx, hx ▸ hc⟩⟩
  · obtain ⟨M, L, P, orig⟩ := err
    refine ⟨_, rfl, ?_⟩
    cases orig with
    | forbiddenError msg =>
      rw [hsome (.mk M L P (.forbiddenError msg)) Common.ForbiddenError.Extensions rfl]
      exact ⟨"FORBIDDEN", rfl⟩
    | unauthorizedError msg =>
      rw [hsome (.mk M L P (.unauthorizedError msg)) Common.UnauthorizedError.Extensions rfl]
      exact ⟨"UNAUTHORIZED", rfl⟩
    | badArgumentError arguments =>
      rw [hsome (.mk M L P (.badArgumentError arguments)) Common.BadArgumentError.Extensions rfl]
      exact ⟨"BAD_USER_INPUT", rfl⟩
    | internalServerError msg =>
      rw [hsome (.mk M L P (.internalServerError msg))
        Common.InternalServerError.Extensions rfl]
      exact ⟨"INTERNAL_SERVER_ERROR", rfl⟩
    | _ => simp [Error.OriginalError, GoError.isBuiltinKind] at he
  · have hx := hnone err h
    exact ⟨⟨_, rfl, hx, hx ▸ not_hasCodeString_none⟩, ⟨_, rfl, hx, hx ▸ not_hasCodeString_none⟩⟩
  · exact ⟨.mk msg (some []) none none (errorsNew msg), rfl, rfl, not_hasCodeString_none⟩

/-- C10 amended, at concrete inputs: a `*Error` wrapping `Forbidden("denied")` of
`common.go` is formatted with a `code` string, and so is the `FormattedError`
returned by `Forbidden("denied")` of `formatted.go` when formatted again. -/
theorem FormatError_code_extension_witness :
    (∃ r : FormattedError,
      FormatError (.errorPtr (.mk "denied" none none (Common.Forbidden "denied"))) = some r ∧
      HasCodeString r.Extensions) ∧
    (∃ r : FormattedError,
      FormatError (.formatted (Formatted.Forbidden "denied")) = some r ∧
      HasCodeString r.Extensions) :=
  ⟨(FormatError_code_extension.1 (.mk "denied" none none (Common.Forbidden "denied"))
      (some [("code", .str "FORBIDDEN")]) rfl ⟨"FORBIDDEN", rfl⟩).1.imp
      (fun _ h => ⟨h.1, h.2.2⟩),
   FormatError_code_extension.2.2.1 (Formatted.Forbidden "denied") ⟨"FORBIDDEN", rfl⟩⟩

/-! ## Formatting: what the result keeps of its argument -/

/-- The fields `FormatError` sets in the case `*Error`, apart from `Extensions`. -/
theorem formatErrorPtr_fields (err : Error) :
    (formatErrorPtr err).Message = err.Error ∧
    (formatErrorPtr err).Locations = err.Locations ∧
    (formatErrorPtr err).Path = err.Path ∧
    (formatErrorPtr err).originalError = .errorPtr err := by
  obtain ⟨M, L, P, orig⟩ := err
  unfold formatErrorPtr
  cases orig <;>
    simp [Error.OriginalError, Error.Error, Error.Locations, Error.Path, GoError.asExtended,
      FormattedError.Message, FormattedError.Locations, FormattedError.Path,
      FormattedError.originalError]
  case other msg ext =>
    cases ext <;> simp

/-- `Extensions` stays nil in the case `*Error` when the original error has no
extension mapping (which includes the nil original error). -/
theorem formatErrorPtr_extensions_none (err : Error)
    (h : err.OriginalError.asExtended = none) : (formatErrorPtr err).Extensions = none := by
  obtain ⟨M, L, P, orig⟩ := err
  simp only [Error.OriginalError] at h
  cases orig <;>
    simp_all [formatErrorPtr, Error.OriginalError, FormattedError.Extensions,
      FormattedError.Message, FormattedError.Locations, FormattedError.Path,
      FormattedError.originalError, GoError.asExtended]

/-- C14: for every `*Error` `err`, `FormatError(err)` has `Message = err.Error()`,
`Locations = err.Locations` and `Path = err.Path`, and its `Extensions` is nil
whenever `err.OriginalError` is nil or does not implement `ExtendedError`. -/
theorem FormatError_errorPtr_fields (err : Error) :
    ∃ r : FormattedError, FormatError (.errorPtr err) = some r ∧
      r.Message = err.Error ∧ r.Locations = err.Locations ∧ r.Path = err.Path ∧
      (err.OriginalError = .nil ∨ err.OriginalError.asExtended = none →
        r.Extensions = none) := by
  have hf := formatErrorPtr_fields err
  refine ⟨formatErrorPtr err, rfl, hf.1, hf.2.1, hf.2.2.1, fun h => ?_⟩
  apply formatErrorPtr_extensions_none
  rcases h with h | h
  · rw [h]; rfl
  · exact h

/-- C14, at a concrete input: a `*Error` with message `"boom"`, one location, a
path of one key and a plain original error. -/
theorem FormatError_errorPtr_fields_witness :
    ∃ r : FormattedError,
      FormatError (.errorPtr (.mk "boom" (some [⟨1, 3⟩]) (some [.str "test"])
        (errorsNew "boom"))) = some r ∧
      r.Message = "boom" ∧ r.Locations = some [⟨1, 3⟩] ∧ r.Path = some [.str "test"] ∧
      r.Extensions = none :=
  (FormatError_errorPtr_fields
    (.mk "boom" (some [⟨1, 3⟩]) (some [.str "test"]) (errorsNew "boom"))).imp
    (fun _ h => ⟨h.1, h.2.1, h.2.2.1, h.2.2.2.1, h.2.2.2.2 (Or.inr rfl)⟩)

/-- C15: `FormatError` preserves the message of every error: the `Error()` of the
result is the `Error()` of the argument, whether the argument is already
formatted, an `Error` or `*Error`, or any other error (on the nil interface both
calls panic, and `FormatError` panics only there). -/
theorem FormatError_preserves_message :
    (∀ e : GoError, (FormatError e).map FormattedError.Error = e.Error) ∧
    (∀ e : GoError, FormatError e = none ↔ e = .nil) := by
  refine ⟨fun e => ?_, FormatError_eq_none_iff⟩
  cases e with
  | errorPtr x => simpa [FormatError, GoError.Error, FormattedError.Error] using
      (formatErrorPtr_fields x).1
  | errorVal x => simpa [FormatError, GoError.Error, FormattedError.Error] using
      (formatErrorPtr_fields x).1
  | _ => simp [FormatError, GoError.Error, FormattedError.Error, FormattedError.Message]

/-- C16: `FormatErrors` applies `FormatError` element by element: when no element
is the nil interface it returns a list of the same length whose `i`-th element is
`FormatError(errs[i])` for every index `i`, and for no errors the empty list; it
panics exactly when `FormatError` panics on some element. -/
theorem FormatErrors_elementwise (errs : List GoError) (hnil : ∀ e ∈ errs, e ≠ .nil) :
    (∃ fs : List FormattedError, FormatErrors errs = some fs ∧ fs.length = errs.length ∧
      ∀ i : Nat, i < errs.length → (errs[i]?).bind FormatError = fs[i]?) ∧
    FormatErrors [] = some [] ∧
    (∀ es : List GoError, FormatErrors es = none ↔ ∃ e ∈ es, FormatError e = none) := by
  refine ⟨?_, rfl, fun es => ?_⟩
  · induction errs with
    | nil => exact ⟨[], rfl, rfl, fun i hi => absurd hi (by simp)⟩
    | cons e es ih =>
      obtain ⟨fs, hfs, hlen, hidx⟩ := ih (fun x hx => hnil x (List.mem_cons_of_mem _ hx))
      have he : FormatError e ≠ none := fun h =>
        hnil e (List.mem_cons_self _ _) ((FormatError_eq_none_iff e).1 h)
      obtain ⟨f, hf⟩ := Option.ne_none_iff_exists'.1 he
      refine ⟨f :: fs, by simp [FormatErrors, hf, hfs], by simp [hlen], fun i hi => ?_⟩
      cases i with
      | zero => simp [hf]
      | succ j =>
        have hj : j < es.length := by simpa using hi
        simpa using hidx j hj
  · induction es with
    | nil => simp [FormatErrors]
    | cons e es ih =>
      cases hf : FormatError e with
      | none => simp [FormatErrors, hf]
      | some f =>
        cases hfs : FormatErrors es with
        | none =>
          have := ih.1 hfs
          simp [FormatErrors, hf, hfs, this]
        | some fs =>
          have hno : ¬ ∃ x ∈ es, FormatError x = none := fun h => by
            have := ih.2 h
            simp [hfs] at this
          simp only [FormatErrors, hf, hfs, List.mem_cons, exists_eq_or_imp]
          simp only [not_exists, not_and] at hno
          simpa [hf] using hno

/-- C16, at a concrete input: a built-in error and a plain error are formatted in
order. -/
theorem FormatErrors_elementwise_witness :
    ∃ fs : List FormattedError,
      FormatErrors [Common.Forbidden "", errorsNew "boom"] = some fs ∧ fs.length = 2 ∧
      fs.map FormattedError.Message = ["authentication failure, permission denied", "boom"] := by
  obtain ⟨fs, h, hlen, _⟩ :=
    (FormatErrors_elementwise [Common.Forbidden "", errorsNew "boom"]
      (by simp [Common.Forbidden, errorsNew])).1
  refine ⟨fs, h, hlen, ?_⟩
  have h2 : FormatErrors [Common.Forbidden "", errorsNew "boom"]
      = some [.mk "authentication failure, permission denied" (some []) none none
          (.forbiddenError ""), .mk "boom" (some []) none none (errorsNew "boom")] := by
    simp [FormatErrors, FormatError, GoError.Error, Common.Forbidden,
      Common.ForbiddenError.Error, errorsNew]
  rw [h2] at h
  cases h
  rfl

/-- C17: `UserInputError(msg, where...)` of `formatted.go` returns a value whose
`Locations` is `where`, in the same order, whose `Path` is empty, and whose
`Message` is `msg` when `msg` is non-empty and `"bad arguments"` when it is
empty. -/
theorem formatted_UserInputError_fields (msg : String) (wh : Slice SourceLocation) :
    (Formatted.UserInputError msg wh).Locations = wh ∧
    (Formatted.UserInputError msg wh).Path = some [] ∧
    (Formatted.UserInputError msg wh).Path.len = 0 ∧
    (Formatted.UserInputError msg wh).Message = (if msg = "" then "bad arguments" else msg) :=
  ⟨rfl, rfl, rfl, rfl⟩

/-- C18: `NewFormattedError(m)` is `FormatError` of a plain error with message
`m`: its `Message` is `m`, its `Error()` is `m`, its `Locations` is empty, and it
has no `Path` and no `Extensions`. -/
theorem NewFormattedError_fields (m : String) :
    NewFormattedError m = FormatError (errorsNew m) ∧
    (errorsNew m).Error = some m ∧
    ∃ r : FormattedError, NewFormattedError m = some r ∧ r.Message = m ∧ r.Error = m ∧
      r.Locations = some [] ∧ r.Path = none ∧ r.Extensions = none :=
  ⟨rfl, rfl, .mk m (some []) none none (errorsNew m), rfl, rfl, rfl, rfl, rfl, rfl⟩

/-- C19: `FormatError` retains the error it formatted. For a `*Error` and for any
error other than a `FormattedError` or an `Error` value, the `OriginalError()` of
the result is the argument; for a `FormattedError` `f` it is
`f.OriginalError()`; the constructors `Forbidden`, `Unauthorized`,
`UserInputError` and `InternalError` of `formatted.go` return a value whose
`OriginalError()` is nil. -/
theorem FormatError_retains_original :
    (∀ e : GoError, e ≠ .nil → (∀ f, e ≠ .formatted f) → (∀ x, e ≠ .errorVal x) →
      (FormatError e).map FormattedError.OriginalError = some e) ∧
    (∀ f : FormattedError,
      (FormatError (.formatted f)).map FormattedError.OriginalError = some f.OriginalError) ∧
    (∀ msg, (Formatted.Forbidden msg).OriginalError = .nil) ∧
    (∀ msg, (Formatted.Unauthorized msg).OriginalError = .nil) ∧
    (∀ msg wh, (Formatted.UserInputError msg wh).OriginalError = .nil) ∧
    (∀ msg, (Formatted.InternalError msg).OriginalError = .nil) := by
  refine ⟨fun e hnil hf hv => ?_, fun f => rfl, fun _ => rfl, fun _ => rfl,
    fun _ _ => rfl, fun _ => rfl⟩
  cases e with
  | nil => exact absurd rfl hnil
  | formatted f => exact absurd rfl (hf f)
  | errorVal x => exact absurd rfl (hv x)
  | errorPtr x =>
    simp [FormatError, FormattedError.OriginalError, (formatErrorPtr_fields x).2.2.2]
  | _ => simp [FormatError, GoError.Error, FormattedError.OriginalError,
      FormattedError.originalError]

/-- C19, at concrete inputs: a `*Error` and a built-in error of `common.go` are
the original errors of their formatted forms. -/
theorem FormatError_retains_original_witness :
    (FormatError (.errorPtr (.mk "boom" none none .nil))).map FormattedError.OriginalError
      = some (.errorPtr (.mk "boom" none none .nil)) ∧
    (FormatError (Common.Unauthorized "who")).map FormattedError.OriginalError
      = some (Common.Unauthorized "who") :=
  ⟨FormatError_retains_original.1 (.errorPtr (.mk "boom" none none .nil)) (by simp)
      (by simp) (by simp),
   FormatError_retains_original.1 (Common.Unauthorized "who") (by simp [Common.Unauthorized])
      (by simp [Common.Unauthorized]) (by simp [Common.Unauthorized])⟩

/-! ## The execution engine: default resolution -/

namespace Executor

/-- A document that selects one field without alias, arguments or sub-selections
is merged into one node, given two units of fuel. -/
theorem collectFields_single (schema : Schema) (fragments : List FragmentDef)
    (typeName : String) (fuel : Nat) (name : String) :
    collectFields schema fragments typeName (fuel + 2) [.field none name [] []] []
      = .ok [⟨name, name, [], []⟩] := rfl

/-- With less than two units of fuel the merge of a one-field selection stops. -/
theorem collectFields_short (schema : Schema) (fragments : List FragmentDef)
    (typeName : String) (fuel : Nat) (h : fuel < 2) (name : String) :
    collectFields schema fragments typeName fuel [.field none name [] []] []
      = .error .outOfFuel := by
  match fuel, h with
  | 0, _ => rfl
  | 1, _ => rfl

/-- Argument coercion cannot fail when the query supplies no argument. -/
theorem coerceArguments_none_supplied (schema : Schema) (vars : List (String × Value))
    (defs : List ArgumentDef) : ∃ args, coerceArguments schema vars [] defs = .ok args := by
  induction defs with
  | nil => exact ⟨[], rfl⟩
  | cons d ds ih =>
    obtain ⟨rest, h⟩ := ih
    cases hd : d.defaultValue with
    | none => exact ⟨rest, by simp [coerceArguments, h, hd]⟩
    | some v => exact ⟨(d.name, v) :: rest, by simp [coerceArguments, h, hd]⟩

/-- A field without resolver, selected without arguments or sub-selections, is
completed from the value the default resolution yields. -/
theorem executeField_default (ctx : ExecContext)
    (complete : Ty → Value → List Selection → List GoValue → Except Failure Completed)
    (fuel : Nat) (typeName : String) (parent : Value) (path : List GoValue) (name : String)
    (fd : Field) (hfd : ctx.schema.fieldDef typeName name = some fd) (hres : fd.resolve = none) :
    executeField ctx complete (fuel + 1) typeName parent path ⟨name, name, [], []⟩
      = match complete fd.type (defaultResolve parent name name) [] (path ++ [.str name]) with
        | .error e => .error e
        | .ok r => .ok (some (fd.type.isNonNull, r)) := by
  obtain ⟨args, hargs⟩ := coerceArguments_none_supplied ctx.schema ctx.vars fd.args
  have hm : mergeTree ctx.schema ctx.fragments (fuel + 1) fd.type.typeName [] = .ok [] := rfl
  simp only [executeField, hfd, hargs, hm, hres]

/-- Strategy (a): a keyed mapping yields the value it binds the field name to. -/
theorem defaultResolve_mapping_value (entries : List (String × Value)) (name : String)
    (v : Value) (h : entries.lookup name = some v) (hv : ∀ r, v ≠ .accessor r) :
    defaultResolve (.mapping entries) name name = v := by
  cases v <;> simp_all [defaultResolve, keyedLookup, lookupEntry]

/-- Strategy (b): a zero-argument accessor bound to the field name is invoked. -/
theorem defaultResolve_mapping_accessor (entries : List (String × Value)) (name : String)
    (v : Value) (h : entries.lookup name = some (.accessor v)) :
    defaultResolve (.mapping entries) name name = v := by
  simp [defaultResolve, keyedLookup, callableMember, lookupEntry, h]

/-- The response to a one-field document depends on the root value only through
the value the default resolution yields, when the field has no resolver. -/
theorem execute_default_congr (schema : Schema) (fd : Field) (name : String)
    (root root' : Value) (fuel : Nat)
    (hfd : schema.fieldDef schema.queryType name = some fd) (hres : fd.resolve = none)
    (h : defaultResolve root' name name = defaultResolve root name name) :
    execute fuel schema ⟨[.field none name [] []], []⟩ root' []
      = execute fuel schema ⟨[.field none name [] []], []⟩ root [] := by
  by_cases hfuel : fuel < 2
  · simp only [execute, executeObject, collectFields_short _ _ _ _ hfuel]
  · obtain ⟨n, rfl⟩ := Nat.exists_eq_add_of_le' (Nat.le_of_not_lt hfuel)
    simp only [execute, executeObject, collectFields_single, executeNodes]
    rw [executeField_default _ _ (n + 1) _ root' _ name fd hfd hres,
      executeField_default _ _ (n + 1) _ root _ name fd hfd hres, h]

/-- C11 fails for a field whose declared type the value does not fit. With `test`
declared `[String]` and the root mapping `test` to the string `"testValue"`, the
raw value is no ordered sequence (§4.3 step 3, List), so the query `{ test }`
yields `test: null` and one error, not `test: "testValue"`. With `test` declared
`String!` and the root mapping `test` to null, the non-null violation reaches the
root (§4.3 steps 3 and 4) and the data is null, not `test: null`. -/
theorem default_resolution_data_counterexample :
    (∃ r : Response,
      execute 3 (testSchema listTestField []) queryTest
        (.mapping [("test", .str "testValue")]) [] = .ok r ∧
      r.data = some (.mapping [("test", .null)]) ∧
      r.data ≠ some (.mapping [("test", .str "testValue")]) ∧
      r.errors.length = 1) ∧
    (∃ r : Response,
      execute 3 (testSchema nonNullTestField []) queryTest
        (.mapping [("test", .null)]) [] = .ok r ∧
      r.data = none ∧
      r.data ≠ some (.mapping [("test", .null)]) ∧
      r.errors.length = 1) := by
  refine ⟨⟨_, rfl, rfl, ?_, rfl⟩, ⟨_, rfl, rfl, ?_, rfl⟩⟩
  · intro h
    simp at h
  · intro h
    simp at h

/-- The response to a one-field document whose field has no resolver, when the
declared type of the field coerces the value the root binds to it to itself. -/
theorem execute_default_coerced (schema : Schema) (fd : Field) (name : String)
    (entries : List (String × Value)) (v : Value) (fuel : Nat)
    (hfd : schema.fieldDef schema.queryType name = some fd) (hres : fd.resolve = none)
    (h : entries.lookup name = some v) (hv : ∀ r, v ≠ .accessor r)
    (hc : completeValue ⟨schema, [], []⟩ fuel fd.type v [] [.str name] = .ok ⟨some v, []⟩)
    (hfuel : 2 ≤ fuel) :
    execute fuel schema ⟨[.field none name [] []], []⟩ (.mapping entries) []
      = .ok ⟨some (.mapping [(name, v)]), []⟩ := by
  obtain ⟨n, rfl⟩ := Nat.exists_eq_add_of_le' hfuel
  simp only [completeValue] at hc
  simp only [execute, executeObject, collectFields_single, executeNodes]
  rw [executeField_default _ _ (n + 1) _ _ _ name fd hfd hres,
    defaultResolve_mapping_value entries name v h hv]
  simp only [List.nil_append, hc]
  rfl

/-- A scalar whose serialization leaves a value unchanged coerces it to itself. -/
theorem completeValue_scalar (schema : Schema) (typeName : String)
    (serialize parseValue : Value → Option Value) (v : Value) (fuel : Nat)
    (path : List GoValue)
    (hsc : schema.types.lookup typeName = some (.scalar serialize parseValue))
    (hser : serialize v = some v) :
    completeValue ⟨schema, [], []⟩ (fuel + 1) (.named typeName) v [] path
      = .ok ⟨some v, []⟩ := by
  cases v <;> simp [completeValue, completeType, completeNamed, hsc, hser]

/-- A NonNull scalar whose serialization leaves a non-null value unchanged coerces
it to itself. -/
theorem completeValue_nonNull_scalar (schema : Schema) (typeName : String)
    (serialize parseValue : Value → Option Value) (v : Value) (fuel : Nat)
    (path : List GoValue)
    (hsc : schema.types.lookup typeName = some (.scalar serialize parseValue))
    (hser : serialize v = some v) (hnull : v ≠ .null) :
    completeValue ⟨schema, [], []⟩ (fuel + 1) (.nonNull (.named typeName)) v [] path
      = .ok ⟨some v, []⟩ := by
  have h := completeValue_scalar schema typeName serialize parseValue v fuel path hsc hser
  simp only [completeValue, completeType] at h ⊢
  rw [h]
  cases v <;> first | exact absurd rfl hnull | rfl

/-- C11, amended: default resolution for a field with no resolver. A keyed-mapping
root yields the value `v` it binds the field name to, and a root that binds the
field name to a zero-argument function returning `v` yields `v` as well, so that
the query selecting the field gives the same response for both roots, whatever
the declared type of the field. Whenever the declared type of the field, of any
shape, coerces `v` to itself (the coercion of §4.3 step 3 returns `v` without
error), the data is the field bound to `v`, without errors; a scalar, and a
NonNull scalar for a non-null `v`, whose serialization leaves `v` unchanged do
so. So the root `test: "testValue"` and the query `{ test }` give
`test: "testValue"` for both source shapes, also when `test` is declared
`String!`, and a list of strings is returned as it is by a field declared
`[String]`. -/
theorem default_resolution_mapping :
    (∀ (entries : List (String × Value)) (name : String) (v : Value),
      (entries.lookup name = some v ∧ ∀ r, v ≠ .accessor r) ∨
        entries.lookup name = some (.accessor v) →
      defaultResolve (.mapping entries) name name = v) ∧
    (∀ (schema : Schema) (fd : Field) (name : String) (entries entries' : List (String × Value))
      (v : Value) (fuel : Nat),
      schema.fieldDef schema.queryType name = some fd → fd.resolve = none →
      entries.lookup name = some v → (∀ r, v ≠ .accessor r) →
      entries'.lookup name = some (.accessor v) →
      execute fuel schema ⟨[.field none name [] []], []⟩ (.mapping entries') []
        = execute fuel schema ⟨[.field none name [] []], []⟩ (.mapping entries) []) ∧
    (∀ (schema : Schema) (fd : Field) (name typeName : String)
      (serialize parseValue : Value → Option Value) (entries : List (String × Value))
      (v : Value) (fuel : Nat),
      schema.fieldDef schema.queryType name = some fd → fd.resolve = none →
      fd.type = .named typeName →
      schema.types.lookup typeName = some (.scalar serialize parseValue) →
      entries.lookup name = some v → (∀ r, v ≠ .accessor r) → serialize v = some v →
      2 ≤ fuel →
      execute fuel schema ⟨[.field none name [] []], []⟩ (.mapping entries) []
        = .ok ⟨some (.mapping [(name, v)]), []⟩) ∧
    (∀ (schema : Schema) (fd : Field) (name : String) (entries entries' : List (String × Value))
      (v : Value) (fuel : Nat),
      schema.fieldDef schema.queryType name = some fd → fd.resolve = none →
      entries.lookup name = some v → (∀ r, v ≠ .accessor r) →
      entries'.lookup name = some (.accessor v) →
      completeValue ⟨schema, [], []⟩ fuel fd.type v [] [.str name] = .ok ⟨some v, []⟩ →
      2 ≤ fuel →
      execute fuel schema ⟨[.field none name [] []], []⟩ (.mapping entries) []
          = .ok ⟨some (.mapping [(name, v)]), []⟩ ∧
      execute fuel schema ⟨[.field none name [] []], []⟩ (.mapping entries') []
          = .ok ⟨some (.mapping [(name, v)]), []⟩) ∧
    (∀ (schema : Schema) (fd : Field) (name typeName : String)
      (serialize parseValue : Value → Option Value) (entries : List (String × Value))
      (v : Value) (fuel : Nat),
      schema.fieldDef schema.queryType name = some fd → fd.resolve = none →
      fd.type = .nonNull (.named typeName) →
      schema.types.lookup typeName = some (.scalar serialize parseValue) →
      entries.lookup name = some v → (∀ r, v ≠ .accessor r) → serialize v = some v →
      v ≠ .null → 2 ≤ fuel →
      execute fuel schema ⟨[.field none name [] []], []⟩ (.mapping entries) []
        = .ok ⟨some (.mapping [(name, v)]), []⟩) ∧
    (∀ fuel : Nat, 2 ≤ fuel →
      execute fuel (testSchema plainTestField []) queryTest
          (.mapping [("test", .str "testValue")]) []
        = .ok ⟨some (.mapping [("test", .str "testValue")]), []⟩ ∧
      execute fuel (testSchema plainTestField []) queryTest
          (.mapping [("test", .accessor (.str "testValue"))]) []
        = .ok ⟨some (.mapping [("test", .str "testValue")]), []⟩ ∧
      execute fuel (testSchema nonNullTestField []) queryTest
          (.mapping [("test", .str "testValue")]) []
        = .ok ⟨some (.mapping [("test", .str "testValue")]), []⟩ ∧
      execute fuel (testSchema nonNullTestField []) queryTest
          (.mapping [("test", .accessor (.str "testValue"))]) []
        = .ok ⟨some (.mapping [("test", .str "testValue")]), []⟩ ∧
      execute fuel (testSchema listTestField []) queryTest
          (.mapping [("test", .list [.str "a", .str "b"])]) []
        = .ok ⟨some (.mapping [("test", .list [.str "a", .str "b"])]), []⟩ ∧
      execute fuel (testSchema listTestField []) queryTest
          (.mapping [("test", .accessor (.list [.str "a", .str "b"]))]) []
        = .ok ⟨some (.mapping [("test", .list [.str "a", .str "b"])]), []⟩) := by
  have hcongr : ∀ (schema : Schema) (fd : Field) (name : String)
      (entries entries' : List (String × Value)) (v : Value) (fuel : Nat),
      schema.fieldDef schema.queryType name = some fd → fd.resolve = none →
      entries.lookup name = some v → (∀ r, v ≠ .accessor r) →
      entries'.lookup name = some (.accessor v) →
      execute fuel schema ⟨[.field none name [] []], []⟩ (.mapping entries') []
        = execute fuel schema ⟨[.field none name [] []], []⟩ (.mapping entries) [] := by
    intro schema fd name entries entries' v fuel hfd hres h hv h'
    apply execute_default_congr schema fd name _ _ fuel hfd hres
    rw [defaultResolve_mapping_value entries name v h hv,
      defaultResolve_mapping_accessor entries' name v h']
  refine ⟨fun entries name v h => ?_, hcongr,
    fun schema fd name typeName serialize parseValue entries v fuel hfd hres hty hsc h hv hser
      hfuel => ?_,
    fun schema fd name entries entries' v fuel hfd hres h hv h' hc hfuel => ?_,
    fun schema fd name typeName serialize parseValue entries v fuel hfd hres hty hsc h hv hser
      hnull hfuel => ?_,
    fun fuel hfuel => ?_⟩
  · rcases h with ⟨h, hv⟩ | h
    · exact defaultResolve_mapping_value entries name v h hv
    · exact defaultResolve_mapping_accessor entries name v h
  · obtain ⟨n, rfl⟩ := Nat.exists_eq_add_of_le' hfuel
    exact execute_default_coerced schema fd name entries v (n + 2) hfd hres h hv
      (hty ▸ completeValue_scalar schema typeName serialize parseValue v (n + 1) _ hsc hser)
      hfuel
  · have hdirect := execute_default_coerced schema fd name entries v fuel hfd hres h hv hc hfuel
    exact ⟨hdirect, (hcongr schema fd name entries entries' v fuel hfd hres h hv h').trans hdirect⟩
  · obtain ⟨n, rfl⟩ := Nat.exists_eq_add_of_le' hfuel
    exact execute_default_coerced schema fd name entries v (n + 2) hfd hres h hv
      (hty ▸ completeValue_nonNull_scalar schema typeName serialize parseValue v (n + 1) _
        hsc hser hnull)
      hfuel
  · obtain ⟨n, rfl⟩ := Nat.exists_eq_add_of_le' hfuel
    exact ⟨rfl, rfl, rfl, rfl, rfl, rfl⟩

/-- C11 amended, at the concrete input of the tests: the root `test: "testValue"`,
as a value and as a zero-argument function, and the query `{ test }`, for `test`
declared `String` and, through the coercion of its declared type, `[String]`. -/
theorem default_resolution_mapping_witness :
    execute 2 (testSchema plainTestField []) queryTest
        (.mapping [("test", .str "testValue")]) []
      = .ok ⟨some (.mapping [("test", .str "testValue")]), []⟩ ∧
    execute 2 (testSchema plainTestField []) queryTest
        (.mapping [("test", .accessor (.str "testValue"))]) []
      = execute 2 (testSchema plainTestField []) queryTest
        (.mapping [("test", .str "testValue")]) [] ∧
    execute 2 (testSchema listTestField []) queryTest
        (.mapping [("test", .accessor (.list [.str "a", .str "b"]))]) []
      = .ok ⟨some (.mapping [("test", .list [.str "a", .str "b"])]), []⟩ :=
  ⟨default_resolution_mapping.2.2.1 (testSchema plainTestField []) plainTestField "test"
      "String" _ _ [("test", .str "testValue")] (.str "testValue") 2 rfl rfl rfl rfl rfl
      (by simp) rfl (Nat.le_refl 2),
   default_resolution_mapping.2.1 (testSchema plainTestField []) plainTestField "test"
      [("test", .str "testValue")] [("test", .accessor (.str "testValue"))] (.str "testValue") 2
      rfl rfl rfl (by simp) rfl,
   (default_resolution_mapping.2.2.2.1 (testSchema listTestField []) listTestField "test"
      [("test", .list [.str "a", .str "b"])] [("test", .accessor (.list [.str "a", .str "b"]))]
      (.list [.str "a", .str "b"]) 2 rfl rfl rfl (by simp) rfl rfl (Nat.le_refl 2)).2⟩

/-- The first member a predicate holds for is the one `find?` returns. -/
theorem find?_append_first {α : Type} (p : α → Bool) (pre post : List α) (m : α)
    (hpre : ∀ x ∈ pre, p x = false) (hm : p m = true) :
    (pre ++ m :: post).find? p = some m := by
  induction pre with
  | nil => simp [List.find?, hm]
  | cons a as ih =>
    have ha : p a = false := hpre a (List.mem_cons_self _ _)
    simp only [List.cons_append, List.find?, ha]
    exact ih (fun x hx => hpre x (List.mem_cons_of_mem _ hx))

/-- Strategy (c): a structured record that exposes no accessor for the field
yields its first member that answers to the field name. -/
theorem defaultResolve_record (pre post : List Member) (m : Member) (key name : String)
    (hpre : ∀ x ∈ pre, memberMatches name x = false)
    (hm : m.2.1 = some name ∨ (m.2.1 = none ∧ m.1 = name))
    (hacc : callableMember (.record (pre ++ m :: post)) key name = none) :
    defaultResolve (.record (pre ++ m :: post)) key name = m.2.2 := by
  have hmatch : memberMatches name m = true := by
    rcases hm with h | ⟨h, h'⟩ <;> simp [memberMatches, h, *]
  simp only [defaultResolve, keyedLookup, hacc, recordMember,
    find?_append_first (memberMatches name) pre post m hpre hmatch]

/-- C13: default resolution on a structured record. A sub-field with no resolver
resolves to the first record member that answers to the field name: by its
external-facing tag when the member declares one, otherwise by its own declared
name (the record exposing no accessor for the field); executed as a leaf field it
is completed from the value of that member. So the record `{Str, Int}` without
tags queried as `{ Str, Int }` and the record with the tags `str` and `int`
queried as `{ str, int }` return the member values the resolver stored: the
arguments `aInt: -123, aStr: "String!"` give `"String!"` and `-123`. -/
theorem default_resolution_record :
    (∀ (pre post : List Member) (m : Member) (key name : String),
      (∀ x ∈ pre, memberMatches name x = false) →
      (m.2.1 = some name ∨ (m.2.1 = none ∧ m.1 = name)) →
      callableMember (.record (pre ++ m :: post)) key name = none →
      defaultResolve (.record (pre ++ m :: post)) key name = m.2.2) ∧
    (∀ (ctx : ExecContext)
      (complete : Ty → Value → List Selection → List GoValue → Except Failure Completed)
      (fuel : Nat) (typeName : String) (path : List GoValue) (name : String) (fd : Field)
      (pre post : List Member) (m : Member),
      ctx.schema.fieldDef typeName name = some fd → fd.resolve = none →
      (∀ x ∈ pre, memberMatches name x = false) →
      (m.2.1 = some name ∨ (m.2.1 = none ∧ m.1 = name)) →
      callableMember (.record (pre ++ m :: post)) name name = none →
      executeField ctx complete (fuel + 1) typeName (.record (pre ++ m :: post)) path
          ⟨name, name, [], []⟩
        = match complete fd.type m.2.2 [] (path ++ [.str name]) with
          | .error e => .error e
          | .ok r => .ok (some (fd.type.isNonNull, r))) ∧
    (∀ fuel : Nat, 4 ≤ fuel →
      execute fuel schemaWithoutJSONTags queryStrIntUpper .null []
        = .ok ⟨some (.mapping [("test",
            .mapping [("Str", .str "String!"), ("Int", .int (-123))])]), []⟩) ∧
    (∀ fuel : Nat, 4 ≤ fuel →
      execute fuel schemaWithJSONTags queryStrIntLower .null []
        = .ok ⟨some (.mapping [("test",
            .mapping [("str", .str "String!"), ("int", .int (-123))])]), []⟩) := by
  refine ⟨defaultResolve_record, ?_, fun fuel h => ?_, fun fuel h => ?_⟩
  · intro ctx complete fuel typeName path name fd pre post m hfd hres hpre hm hacc
    rw [executeField_default ctx complete fuel typeName _ path name fd hfd hres,
      defaultResolve_record pre post m name name hpre hm hacc]
  · obtain ⟨n, rfl⟩ := Nat.exists_eq_add_of_le' h
    rfl
  · obtain ⟨n, rfl⟩ := Nat.exists_eq_add_of_le' h
    rfl

/-- C13, at the concrete input of the tests: the member `Str` of the record with
tags answers to the field `str` by its tag, after the member `OtherField` whose
tag is empty, and both test queries return the stored values. -/
theorem default_resolution_record_witness :
    defaultResolve
        (.record [("OtherField", some "", .str ""), ("Str", some "str", .str "String!"),
          ("Int", some "int", .int (-123))]) "str" "str" = .str "String!" ∧
    execute 4 schemaWithoutJSONTags queryStrIntUpper .null []
      = .ok ⟨some (.mapping [("test",
          .mapping [("Str", .str "String!"), ("Int", .int (-123))])]), []⟩ ∧
    execute 4 schemaWithJSONTags queryStrIntLower .null []
      = .ok ⟨some (.mapping [("test",
          .mapping [("str", .str "String!"), ("int", .int (-123))])]), []⟩ :=
  ⟨default_resolution_record.1 [("OtherField", some "", .str "")]
      [("Int", some "int", .int (-123))] ("Str", some "str", .str "String!") "str" "str"
      (by decide) (Or.inl rfl) rfl,
   default_resolution_record.2.2.1 4 (Nat.le_refl 4),
   default_resolution_record.2.2.2 4 (Nat.le_refl 4)⟩

/-! ## The execution engine: field-selection introspection -/

/-- A single key is present in a merged selection structure exactly when a merged
field has it as response key. -/
theorem selectedPath_single (fields : List MergedField) (key : String) :
    selectedPath fields [key] = fields.any (fun f => f.responseKey == key) := by
  induction fields with
  | nil => rfl
  | cons f fs ih =>
    by_cases h : (f.responseKey == key) = true
    · simp [selectedPath, List.find?, h]
    · have h' : (f.responseKey == key) = false := by simpa using h
      simp only [selectedPath, List.find?, h', List.any_cons, Bool.false_or] at ih ⊢
      exact ih

/-- C12: field-selection introspection. Inside the resolver of a field whose
merged sub-selection contains the response key `str` and not `int`,
`IsFieldSelected("/str")` is true and `IsFieldSelected("/int")` is false. A
fragment spread on the object type and an inline fragment with that type
condition merge to the same nodes as the selections they hold, so that for
`{ test { str } }`, for the named fragment and for the inline fragment the merged
sub-selection of `test` is the one field `str`, both assertions of the resolver
of `test` hold and the three responses are the same. -/
theorem field_selection_introspection :
    (∀ info : ResolveInfo,
      (∃ f ∈ info.selection, f.responseKey = "str") →
      (∀ f ∈ info.selection, f.responseKey ≠ "int") →
      info.isFieldSelected "/str" = true ∧ info.isFieldSelected "/int" = false) ∧
    (∀ (schema : Schema) (fragments : List FragmentDef) (typeName name : String)
      (selections : List Selection) (fuel : Nat) (nodes : List SelectionNode),
      collectFields schema fragments typeName (fuel + 1) selections [] = .ok nodes →
      fragments.find? (fun f => f.name == name) = some ⟨name, typeName, selections⟩ →
      collectFields schema fragments typeName (fuel + 2) [.fragmentSpread name] [] = .ok nodes ∧
      collectFields schema fragments typeName (fuel + 2)
        [.inlineFragment (some typeName) selections] [] = .ok nodes) ∧
    (∀ fuel : Nat, 3 ≤ fuel →
      mergeTree testIsSelected queryByField.fragments fuel "SubObject"
          [.field none "str" [] []] = .ok [.mk "str" "str" []] ∧
      mergeTree testIsSelected queryByFragment.fragments fuel "SubObject"
          [.fragmentSpread "SubObjectFragment"] = .ok [.mk "str" "str" []] ∧
      mergeTree testIsSelected queryByInlineFragment.fragments fuel "SubObject"
          [.inlineFragment (some "SubObject") [.field none "str" [] []]]
        = .ok [.mk "str" "str" []]) ∧
    (∀ fuel : Nat, 4 ≤ fuel →
      execute fuel testIsSelected queryByField .null []
        = .ok ⟨some (.mapping [("test", .mapping [("str", .str "0")])]), []⟩ ∧
      execute fuel testIsSelected queryByFragment .null []
        = .ok ⟨some (.mapping [("test", .mapping [("str", .str "0")])]), []⟩ ∧
      execute fuel testIsSelected queryByInlineFragment .null []
        = .ok ⟨some (.mapping [("test", .mapping [("str", .str "0")])]), []⟩) := by
  refine ⟨fun info hstr hint => ?_, ?_, fun fuel h => ?_, fun fuel h => ?_⟩
  · have k1 : patternKeys "/str" = ["str"] := by decide
    have k2 : patternKeys "/int" = ["int"] := by decide
    simp only [ResolveInfo.isFieldSelected, k1, k2, selectedPath_single]
    refine ⟨?_, ?_⟩
    · obtain ⟨f, hf, hk⟩ := hstr
      exact List.any_eq_true.2 ⟨f, hf, by simp [hk]⟩
    · rw [Bool.eq_false_iff]
      intro hany
      obtain ⟨f, hf, hk⟩ := List.any_eq_true.1 hany
      exact hint f hf (by simpa using hk)
  · intro schema fragments typeName name selections fuel nodes hcollect hfrag
    have hsat : schema.typeSatisfies typeName typeName = true := by
      simp [Schema.typeSatisfies]
    constructor
    · simp only [collectFields, hfrag, hsat, if_true, hcollect]
    · simp only [collectFields, hsat, if_true, hcollect]
  · obtain ⟨n, rfl⟩ := Nat.exists_eq_add_of_le' h
    exact ⟨rfl, rfl, rfl⟩
  · obtain ⟨n, rfl⟩ := Nat.exists_eq_add_of_le' h
    exact ⟨rfl, rfl, rfl⟩

/-- C12, at the concrete input of the tests: the merged sub-selection of `test` in
`{ test { str } }` answers `/str` with true and `/int` with false. -/
theorem field_selection_introspection_witness :
    (ResolveInfo.mk "test" [.str "test"] [.mk "str" "str" []]).isFieldSelected "/str" = true ∧
    (ResolveInfo.mk "test" [.str "test"] [.mk "str" "str" []]).isFieldSelected "/int" = false :=
  field_selection_introspection.1 ⟨"test", [.str "test"], [.mk "str" "str" []]⟩
    ⟨.mk "str" "str" [], by simp, rfl⟩
    (by
      intro f hf
      simp only [List.mem_singleton] at hf
      subst hf
      decide)

end Executor

end Gqlerrors
